import Mathlib

/-!
# dotnet-core-execute: requirement plan of `Detect`, SDK version resolver, processes of `Build`

A shallow embedding of `detect.go` and `build.go` of the buildpack
`paketo-buildpacks/dotnet-core-execute`.

Go strings are embedded as Lean `String`s. A Go string is a byte sequence; the functions below
only look for the ASCII bytes `.`, `/` and `*`, none of which occurs inside a multi-byte UTF-8
sequence, so on valid UTF-8 text splitting by bytes and splitting by characters agree.

The functions of Go's standard library that the source calls (`strings.SplitN`, `strings.Join`,
`strconv.ParseBool`, `filepath.Join`, `filepath.Base`, `errors.Is`) are embedded next to the code
that calls them, each following the standard library's own implementation on Unix.
-/

namespace DotnetExecute

/-! ## Go standard library: `strings` -/

/-- Go's `strings.IndexByte` on the characters of a string: the position of the first occurrence
of `b`, with `none` standing for the result `-1`. -/
def indexByte : List Char → Char → Option Nat
  | [], _ => none
  | c :: cs, b => if c = b then some 0 else (indexByte cs b).map (· + 1)

/-- Go's `strings.Count` for a one-byte separator. -/
def Count : List Char → Char → Nat
  | [], _ => 0
  | c :: cs, b => (if c = b then 1 else 0) + Count cs b

/-- The loop of Go's `strings.genSplit` (`sepSave = 0`, one-byte separator): cut at the separator
at most `k` times, the last element being the unsplit remainder.

    for i < n { m := Index(s, sep); if m < 0 { break }; a[i] = s[:m]; s = s[m+len(sep):]; i++ }
    a[i] = s
-/
def genSplitLoop (sep : Char) : Nat → List Char → List (List Char)
  | 0, s => [s]
  | k + 1, s =>
    match indexByte s sep with
    | none => [s]
    | some m => s.take m :: genSplitLoop sep k (s.drop (m + 1))

/-- Go's `strings.SplitN(s, sep, n)` for a one-byte separator `sep`: `n = 0` gives no substrings,
`n < 0` all of them, `n > 0` at most `n`, the last one being the unsplit remainder. The bound
`n > len(s)+1` of `genSplit` is kept (`len` counts bytes). -/
def SplitN (s : String) (sep : Char) (n : Int) : List String :=
  if n = 0 then []
  else
    let n : Nat := if n < 0 then Count s.data sep + 1 else n.toNat
    let n : Nat := if n > s.utf8ByteSize + 1 then s.utf8ByteSize + 1 else n
    (genSplitLoop sep (n - 1) s.data).map String.mk

/-- Go's `strings.Join(elems, sep)`: the first element, then `sep` and the next element for each
of the others; the empty string for no elements. -/
def Join (elems : List String) (sep : String) : String :=
  match elems with
  | [] => ""
  | e :: rest => rest.foldl (fun b s => b ++ sep ++ s) e

/-! ## `getSDKVersion` (detect.go) -/

/-- The `for i, part := range pieces` loop of `getSDKVersion`: `len` is `len(pieces)`, `i` the
index of the head of the remaining pieces, `parts` the slice built so far. The last index is
replaced by `"*"`, and the loop breaks after appending a `"*"`. -/
def getSDKVersionLoop (len : Nat) : Nat → List String → List String → List String
  | _, [], parts => parts
  | i, part :: rest, parts =>
    let part := if i + 1 = len then "*" else part
    let parts := parts ++ [part]
    if part = "*" then parts else getSDKVersionLoop len (i + 1) rest parts

/-- The function `getSDKVersion(version string) string` of detect.go. -/
def getSDKVersion (version : String) : String :=
  if version = "" then "*"
  else
    let pieces := SplitN version '.' 3
    let pieces := if pieces.length < 3 then pieces ++ ["*"] else pieces
    let parts := getSDKVersionLoop pieces.length 0 pieces []
    Join parts "."

/-! ## Go standard library: errors -/

/-- Go `error` values, as far as `Detect` builds and inspects them. -/
inductive GoError where
  /-- The sentinel `os.ErrNotExist`, or an error that `errors.Is` matches with it directly. -/
  | errNotExist : GoError
  /-- The sentinel `strconv.ErrSyntax`. -/
  | errSyntax : GoError
  /-- An error without an `Unwrap` method, such as `errors.New(msg)`. -/
  | errorString (msg : String) : GoError
  /-- The error `&strconv.NumError{Func, Num, Err}`; it unwraps to `Err`. -/
  | numError (Func Num : String) (Err : GoError) : GoError
  /-- The error `fmt.Errorf(before ++ "%w" ++ after, err)`: its message is `before`, the message
  of `err`, then `after`; it unwraps to `err`. -/
  | wrapError (before : String) (err : GoError) (after : String) : GoError
  /-- The error `packit.Fail.WithMessage(msg)`, which marks a negative detection. -/
  | fail (msg : String) : GoError
  deriving DecidableEq

/-- The `Unwrap` chain of a non-nil error reaches `os.ErrNotExist`. -/
def unwrapsToNotExist : GoError → Bool
  | .errNotExist => true
  | .numError _ _ err => unwrapsToNotExist err
  | .wrapError _ err _ => unwrapsToNotExist err
  | _ => false

/-- Go's `errors.Is(err, os.ErrNotExist)`; `none` is the `nil` error, which matches nothing. -/
def errorsIsNotExist : Option GoError → Bool
  | none => false
  | some err => unwrapsToNotExist err

/-- Go's `strconv.ParseBool`: it accepts `1, t, T, TRUE, true, True` and
`0, f, F, FALSE, false, False`; any other value is a syntax error. -/
def ParseBool (str : String) : Bool × Option GoError :=
  if str = "1" ∨ str = "t" ∨ str = "T" ∨ str = "true" ∨ str = "TRUE" ∨ str = "True" then
    (true, none)
  else if str = "0" ∨ str = "f" ∨ str = "F" ∨ str = "false" ∨ str = "FALSE" ∨ str = "False" then
    (false, none)
  else
    (false, some (GoError.numError "ParseBool" str GoError.errSyntax))

/-! ## Go standard library: `path/filepath` (Unix) -/

/-- The backtracking of `filepath.Clean` at a `..` element, started at `w = out.w - 1`:
`for out.w > dotdot && !os.IsPathSeparator(out.index(out.w)) { out.w-- }`. -/
def cleanBacktrack (out : List Char) (dotdot : Nat) : Nat → Nat
  | 0 => 0
  | w + 1 => if w + 1 > dotdot ∧ out.getD (w + 1) '/' ≠ '/' then cleanBacktrack out dotdot w
             else w + 1

/-- The main loop `for r < n` of `filepath.Clean`: the unread part of the path, the buffer `out`
written so far (`out.w` is its length) and the index `dotdot`. Every iteration reads at least one
byte, so a fuel of `n` never runs out. -/
def cleanLoop (rooted : Bool) : Nat → List Char → List Char → Nat → List Char
  | 0, _, out, _ => out
  | _ + 1, [], out, _ => out
  | fuel + 1, c :: rest, out, dotdot =>
    if c = '/' then
      -- empty path element
      cleanLoop rooted fuel rest out dotdot
    else if c = '.' ∧ (rest = [] ∨ rest.head? = some '/') then
      -- . element
      cleanLoop rooted fuel rest out dotdot
    else if c = '.' ∧ rest.head? = some '.' ∧ (rest.tail = [] ∨ rest.tail.head? = some '/') then
      -- .. element: remove to last separator
      if out.length > dotdot then
        cleanLoop rooted fuel rest.tail
          (out.take (cleanBacktrack out dotdot (out.length - 1))) dotdot
      else if !rooted then
        let out := (if out.length > 0 then out ++ ['/'] else out) ++ ['.', '.']
        cleanLoop rooted fuel rest.tail out out.length
      else
        cleanLoop rooted fuel rest.tail out dotdot
    else
      -- real path element: add slash if needed, copy element
      let out := if (rooted && out.length != 1) || (!rooted && out.length != 0)
                 then out ++ ['/'] else out
      cleanLoop rooted fuel ((c :: rest).dropWhile (· ≠ '/'))
        (out ++ (c :: rest).takeWhile (· ≠ '/')) dotdot

/-- Go's `filepath.Clean` on Unix (no volume name, separator `/`). -/
def Clean (path : String) : String :=
  if path = "" then "."
  else
    let rooted : Bool := path.data.head? = some '/'
    let out := cleanLoop rooted path.data.length
      (if rooted then path.data.tail else path.data)
      (if rooted then ['/'] else []) (if rooted then 1 else 0)
    if out.length = 0 then "." else String.mk out

/-- Go's `filepath.Join` on Unix: the elements from the first non-empty one on, joined with `/`
and cleaned; the empty string when every element is empty. -/
def filepathJoin : List String → String
  | [] => ""
  | e :: rest => if e ≠ "" then Clean (Join (e :: rest) "/") else filepathJoin rest

/-- Go's `filepath.Base` on Unix: the last element of the path after stripping trailing
slashes; `"."` for the empty path and `"/"` for a path of slashes only. -/
def filepathBase (path : String) : String :=
  if path = "" then "."
  else
    let stripped := (path.data.reverse.dropWhile (· = '/')).reverse
    let last := (stripped.reverse.takeWhile (· ≠ '/')).reverse
    if last = [] then "/" else String.mk last

/-! ## Data model of `Detect` -/

/-- The `Metadata map[string]interface{}` of a requirement. `Detect` only ever sets the keys
`"version"`, `"version-source"` (strings) and `"launch"` (a boolean); `none` is an absent key. -/
structure RequirementMetadata where
  version : Option String := none
  versionSource : Option String := none
  launch : Option Bool := none
  deriving DecidableEq

/-- The struct `packit.BuildPlanRequirement`. -/
structure BuildPlanRequirement where
  Name : String
  Metadata : RequirementMetadata := {}
  deriving DecidableEq

/-- The struct `packit.BuildPlan`; `Detect` leaves `Provides` and `Or` at their zero values. -/
structure BuildPlan where
  Requires : List BuildPlanRequirement := []
  deriving DecidableEq

/-- The struct `packit.DetectResult`; the default is the zero value `packit.DetectResult{}`. -/
structure DetectResult where
  Plan : BuildPlan := {}
  deriving DecidableEq

/-- The field of `packit.DetectContext` that `Detect` reads. -/
structure DetectContext where
  WorkingDir : String

/-- The fields of `RuntimeConfig` that `Detect` and `Build` read. -/
structure RuntimeConfig where
  Path : String := ""
  RuntimeVersion : String := ""
  ASPNETVersion : String := ""
  AppName : String := ""
  Executable : Bool := false
  deriving DecidableEq

/-- The process environment as `os.LookupEnv` sees it: `none` for an unset variable. -/
abbrev Env := String → Option String

/-- The interface `BuildpackConfigParser`; a method returns its value and its `error`. -/
structure BuildpackConfigParser where
  ParseProjectPath : String → String × Option GoError

/-- The interface `ConfigParser`. -/
structure ConfigParser where
  Parse : String → RuntimeConfig × Option GoError

/-- The interface `ProjectParser`. -/
structure ProjectParser where
  FindProjectFile : String → String × Option GoError
  ParseVersion : String → String × Option GoError
  ASPNetIsRequired : String → Bool × Option GoError
  NodeIsRequired : String → Bool × Option GoError

/-! ## `Detect` (detect.go) -/

/-- Lines 38-43 of `Detect`: the project path comes from `BP_DOTNET_PROJECT_PATH` when that
variable is set, otherwise from `buildpack.yml`. -/
def detectProjectPath (env : Env) (buildpackYMLParser : BuildpackConfigParser)
    (context : DetectContext) : String × Option GoError :=
  match env "BP_DOTNET_PROJECT_PATH" with
  | some projectPath => (projectPath, none)
  | none =>
    match buildpackYMLParser.ParseProjectPath (filepathJoin [context.WorkingDir, "buildpack.yml"]) with
    | (projectPath, none) => (projectPath, none)
    | (projectPath, some err) =>
      (projectPath, some (GoError.wrapError "failed to parse buildpack.yml: " err ""))

/-- Lines 45-49 of `Detect`: the directory the parsers look in. -/
def detectRoot (context : DetectContext) (projectPath : String) : String :=
  if projectPath ≠ "" then filepathJoin [context.WorkingDir, projectPath]
  else context.WorkingDir

/-- Lines 60-73 of `Detect`: the `watchexec` requirement for `BP_LIVE_RELOAD_ENABLED`. -/
def detectLiveReload (env : Env) (requirements : List BuildPlanRequirement) :
    List BuildPlanRequirement × Option GoError :=
  match env "BP_LIVE_RELOAD_ENABLED" with
  | some reload =>
    match ParseBool reload with
    | (_, some err) =>
      (requirements, some (GoError.wrapError "failed to parse BP_LIVE_RELOAD_ENABLED: " err ""))
    | (shouldEnableReload, none) =>
      if shouldEnableReload then
        (requirements ++ [{ Name := "watchexec", Metadata := { launch := some true } }], none)
      else (requirements, none)
  | none => (requirements, none)

/-- Lines 80-113 of `Detect` (the FDE and FDD cases): the requirements read off
`*.runtimeconfig.json`. -/
def detectRuntimeConfig (config : RuntimeConfig) (requirements : List BuildPlanRequirement) :
    List BuildPlanRequirement :=
  if config.RuntimeVersion ≠ "" then
    let requirements := requirements ++ [{
      Name := "dotnet-runtime",
      Metadata := { version := some config.RuntimeVersion,
                    versionSource := some "runtimeconfig.json",
                    launch := some true } }]
    -- Only make SDK available at launch if there is no executable (FDD case only)
    let requirements :=
      if !config.Executable then
        requirements ++ [{
          Name := "dotnet-sdk",
          Metadata := { version := some (getSDKVersion config.RuntimeVersion),
                        versionSource := some "runtimeconfig.json" } }]
      else requirements
    if config.ASPNETVersion ≠ "" then
      requirements ++ [{
        Name := "dotnet-aspnetcore",
        Metadata := { version := some config.ASPNETVersion,
                      versionSource := some "runtimeconfig.json",
                      launch := some true } }]
    else requirements
  else requirements

/-- Lines 124-184 of `Detect`: the requirements read off the project file `projectFile`
(non-empty). -/
def detectProjectFile (projectParser : ProjectParser) (projectFile : String)
    (requirements : List BuildPlanRequirement) : List BuildPlanRequirement × Option GoError :=
  match projectParser.ParseVersion projectFile with
  | (_, some err) => (requirements, some err)
  | (version, none) =>
    let requirements := requirements ++ [{
      Name := "dotnet-application",
      Metadata := { launch := some true } }]
    let requirements := requirements ++ [{
      Name := "dotnet-runtime",
      Metadata := { version := some version,
                    versionSource := some (filepathBase projectFile),
                    launch := some true } }]
    let requirements := requirements ++ [{
      Name := "dotnet-sdk",
      Metadata := { version := some (getSDKVersion version),
                    versionSource := some (filepathBase projectFile) } }]
    match projectParser.ASPNetIsRequired projectFile with
    | (_, some err) => (requirements, some err)
    | (aspNetIsRequired, none) =>
      let requirements :=
        if aspNetIsRequired then
          requirements ++ [{
            Name := "dotnet-aspnetcore",
            Metadata := { version := some version,
                          versionSource := some (filepathBase projectFile),
                          launch := some true } }]
        else requirements
      match projectParser.NodeIsRequired projectFile with
      | (_, some err) => (requirements, some err)
      | (nodeIsRequired, none) =>
        if nodeIsRequired then
          (requirements ++ [{
            Name := "node",
            Metadata := { versionSource := some (filepathBase projectFile),
                          launch := some true } }], none)
        else (requirements, none)

/-- The function `Detect(buildpackYMLParser, configParser, projectParser)` of detect.go applied
to a context: the pair of the `packit.DetectResult` and the `error` it returns. Every error
return carries the zero `packit.DetectResult{}`. -/
def Detect (env : Env) (buildpackYMLParser : BuildpackConfigParser) (configParser : ConfigParser)
    (projectParser : ProjectParser) (context : DetectContext) : DetectResult × Option GoError :=
  match detectProjectPath env buildpackYMLParser context with
  | (_, some err) => ({}, some err)
  | (projectPath, none) =>
    let root := detectRoot context projectPath
    let requirements : List BuildPlanRequirement :=
      [{ Name := "icu", Metadata := { launch := some true } }]
    match detectLiveReload env requirements with
    | (_, some err) => ({}, some err)
    | (requirements, none) =>
      match configParser.Parse (filepathJoin [root, "*.runtimeconfig.json"]) with
      | (config, err) =>
        if err ≠ none ∧ errorsIsNotExist err = false then ({}, err)
        else
          let requirements := detectRuntimeConfig config requirements
          match projectParser.FindProjectFile root with
          | (_, some err) => ({}, some err)
          | (projectFile, none) =>
            if config.Path = "" ∧ projectFile = "" then
              ({}, some (GoError.fail "no *.runtimeconfig.json or project file found"))
            else if projectFile ≠ "" then
              match detectProjectFile projectParser projectFile requirements with
              | (_, some err) => ({}, some err)
              | (requirements, none) => ({ Plan := { Requires := requirements } }, none)
            else ({ Plan := { Requires := requirements } }, none)

/-- The directory `root` of a run of `Detect` (lines 38-49): the working directory joined with
the project path, if there is one. -/
def detectedRoot (env : Env) (buildpackYMLParser : BuildpackConfigParser)
    (context : DetectContext) : String :=
  detectRoot context (detectProjectPath env buildpackYMLParser context).1

/-- The config and the error that `configParser.Parse` hands to `Detect` on this input
(line 75). -/
def detectedConfigResult (env : Env) (buildpackYMLParser : BuildpackConfigParser)
    (configParser : ConfigParser) (context : DetectContext) : RuntimeConfig × Option GoError :=
  configParser.Parse
    (filepathJoin [detectedRoot env buildpackYMLParser context, "*.runtimeconfig.json"])

/-- The `RuntimeConfig` that `Detect` works with on this input, whatever error came with it. -/
def detectedConfig (env : Env) (buildpackYMLParser : BuildpackConfigParser)
    (configParser : ConfigParser) (context : DetectContext) : RuntimeConfig :=
  (detectedConfigResult env buildpackYMLParser configParser context).1

/-- The path and the error that `projectParser.FindProjectFile` hands to `Detect` on this
input (line 115). -/
def detectedProjectFileResult (env : Env) (buildpackYMLParser : BuildpackConfigParser)
    (projectParser : ProjectParser) (context : DetectContext) : String × Option GoError :=
  projectParser.FindProjectFile (detectedRoot env buildpackYMLParser context)

/-- The project file path that `Detect` works with on this input; empty when none is found. -/
def detectedProjectFile (env : Env) (buildpackYMLParser : BuildpackConfigParser)
    (projectParser : ProjectParser) (context : DetectContext) : String :=
  (detectedProjectFileResult env buildpackYMLParser projectParser context).1

/-! ## Data model of `Build` (build.go) -/

/-- The fields of `Configuration` that `Build` reads. -/
structure Configuration where
  LiveReloadEnabled : Bool := false
  DebugEnabled : Bool := false
  deriving DecidableEq

/-- The type `packit.Environment`, a `map[string]string`, as an association list with one
entry for each key. -/
abbrev Environment := List (String × String)

/-- The assignment `e[key] = value` on a `packit.Environment`: an existing entry for the key is
overwritten, otherwise one is added. -/
def Environment.set (e : Environment) (key value : String) : Environment :=
  if e.any (fun entry => entry.1 = key) then
    e.map (fun entry => if entry.1 = key then (key, value) else entry)
  else e ++ [(key, value)]

/-- The method `Environment.Default(name, value)` of packit: `e[name+".default"] = value`. -/
def Environment.Default (e : Environment) (name value : String) : Environment :=
  e.set (name ++ ".default") value

/-- The fields of `packit.Layer` that `Build` sets or that hold environment variables; `Build`
neither reads nor writes the others (`Metadata`, `SBOM`). -/
structure Layer where
  Path : String := ""
  Name : String := ""
  Build : Bool := false
  Launch : Bool := false
  Cache : Bool := false
  SharedEnv : Environment := []
  BuildEnv : Environment := []
  LaunchEnv : Environment := []
  ProcessLaunchEnv : List (String × Environment) := []
  ExecD : List String := []
  deriving DecidableEq

/-- The struct `packit.Process`, without the working directory that `Build` leaves unset; the
field `Type` is written `TypeName`, as `Type` is reserved in Lean. -/
structure Process where
  TypeName : String := ""
  Command : String := ""
  Args : List String := []
  Direct : Bool := false
  Default : Bool := false
  deriving DecidableEq

/-- A formatted bill of materials, the value of `sbom.SBOM.InFormats`; `Build` only passes it
on. -/
structure SBOMFormatter where
  formats : List String
  deriving DecidableEq

/-- The bill of materials `sbom.SBOM` with its method `InFormats`. -/
structure SBOM where
  InFormats : List String → SBOMFormatter × Option GoError

/-- The interface `SBOMGenerator`. -/
structure SBOMGenerator where
  Generate : String → SBOM × Option GoError

/-- The struct `packit.LaunchMetadata`; `SBOM` is `none` in the zero value. -/
structure LaunchMetadata where
  Processes : List Process := []
  SBOM : Option SBOMFormatter := none
  deriving DecidableEq

/-- The struct `packit.BuildResult`; the default is the zero value `packit.BuildResult{}`. -/
structure BuildResult where
  Layers : List Layer := []
  Launch : LaunchMetadata := {}
  deriving DecidableEq

/-- The value `packit.Layers` with its method `Get`, which reads the layer from the layers
directory. -/
structure Layers where
  Get : String → Layer × Option GoError

/-- The field of `packit.BuildpackInfo` that decides a result of `Build`; name and version are
only logged. -/
structure BuildpackInfo where
  SBOMFormats : List String := []

/-- The fields of `packit.BuildContext` that `Build` reads. -/
structure BuildContext where
  WorkingDir : String
  CNBPath : String
  Layers : Layers
  BuildpackInfo : BuildpackInfo := {}

/-- One call of the function that `filepath.Walk` is given: the path, the mode of its
`fs.FileInfo`, and the error of reading it. -/
structure WalkEntry where
  path : String
  mode : Nat
  err : Option GoError := none
  deriving DecidableEq

/-- The operating system as `Build` uses it: `env.Marshal` on the configuration (its error),
`os.Stat` (its error), the calls that `filepath.Walk` makes on a root as long as the walk
function returns `nil`, and `os.Chmod` (its error). -/
structure System where
  Marshal : Configuration → Option GoError
  Stat : String → Option GoError
  Walk : String → List WalkEntry
  Chmod : String → Nat → Option GoError

/-! ## `Build` (build.go) -/

/-- Lines 79-92 of `Build`: the command and its arguments. For an app that is not executable the
DLL is looked up with `os.Stat` and the command is `dotnet` on the DLL. The two tests on the
error of `os.Stat` are both under the case of a non-nil error, as `errors.Is` is false on
`nil`. -/
def buildCommand (system : System) (context : BuildContext) (runtimeConfig : RuntimeConfig) :
    String × List String × Option GoError :=
  let command := filepathJoin [context.WorkingDir, runtimeConfig.AppName]
  let args : List String := []
  if !runtimeConfig.Executable then
    match system.Stat (filepathJoin [context.WorkingDir, runtimeConfig.AppName ++ ".dll"]) with
    | some err =>
      if errorsIsNotExist (some err) = false then (command, args, some err)
      else
        (command, args, some (GoError.wrapError
          ("no entrypoint [" ++ runtimeConfig.AppName ++ ".dll] found: ") err " "))
    | none =>
      let command := "dotnet"
      let args := args ++ [filepathJoin [context.WorkingDir, runtimeConfig.AppName] ++ ".dll"]
      (command, args, none)
  else (command, args, none)

/-- Lines 127-136 of `Build`: the function given to `filepath.Walk`, run over the calls of the
walk; the walk stops at the first error. Every path but the working directory gets group read
and write permission, `os.Chmod(path, info.Mode()|0060)`. -/
def buildWalk (system : System) (context : BuildContext) : List WalkEntry → Option GoError
  | [] => none
  | entry :: rest =>
    match entry.err with
    | some err => some err
    | none =>
      if entry.path = context.WorkingDir then buildWalk system context rest
      else
        match system.Chmod entry.path (entry.mode ||| 0o060) with
        | some err => some err
        | none => buildWalk system context rest

/-- Lines 94-140 of `Build`: the launch processes, one for the app, or with live reload the
`watchexec` process and the app. -/
def buildProcesses (config : Configuration) (system : System) (context : BuildContext)
    (runtimeConfig : RuntimeConfig) (command : String) (args : List String) :
    List Process × Option GoError :=
  let processes : List Process :=
    [{ TypeName := runtimeConfig.AppName, Command := command, Args := args,
       Default := true, Direct := true }]
  if config.LiveReloadEnabled then
    let processes : List Process :=
      [{ TypeName := "reload-" ++ runtimeConfig.AppName,
         Command := "watchexec",
         Args := ["--restart", "--watch", context.WorkingDir, "--shell", "none", "--", command]
                   ++ args,
         Default := true, Direct := true },
       { TypeName := runtimeConfig.AppName, Command := command, Args := args, Direct := true }]
    match buildWalk system context (system.Walk context.WorkingDir) with
    | some err => (processes, some err)
    | none => (processes, none)
  else (processes, none)

/-- Lines 144-153 of `Build`: the `port-chooser` layer. -/
def buildPortChooserLayer (config : Configuration) (context : BuildContext) :
    Layer × Option GoError :=
  match context.Layers.Get "port-chooser" with
  | (portChooserLayer, some err) => (portChooserLayer, some err)
  | (portChooserLayer, none) =>
    let portChooserLayer := { portChooserLayer with Launch := true }
    let portChooserLayer :=
      { portChooserLayer with ExecD := [filepathJoin [context.CNBPath, "bin", "port-chooser"]] }
    if config.DebugEnabled then
      ({ portChooserLayer with
          LaunchEnv := portChooserLayer.LaunchEnv.Default "ASPNETCORE_ENVIRONMENT"
            "Development" }, none)
    else (portChooserLayer, none)

/-- The function `Build(config, configParser, sbomGenerator, logger, clock)` of build.go applied
to a context: the pair of the `packit.BuildResult` and the `error` it returns. The logger only
writes output and the clock only measures the duration that is logged; neither decides a
result. Every error return carries the zero `packit.BuildResult{}`. -/
def Build (config : Configuration) (configParser : ConfigParser) (sbomGenerator : SBOMGenerator)
    (system : System) (context : BuildContext) : BuildResult × Option GoError :=
  match system.Marshal config with
  | some err => ({}, some (GoError.wrapError "parsing build configuration: " err ""))
  | none =>
    match configParser.Parse (filepathJoin [context.WorkingDir, "*.runtimeconfig.json"]) with
    | (_, some err) =>
      ({}, some (GoError.wrapError "failed to find *.runtimeconfig.json: " err ""))
    | (runtimeConfig, none) =>
      match sbomGenerator.Generate context.WorkingDir with
      | (_, some err) => ({}, some err)
      | (sbomContent, none) =>
        match sbomContent.InFormats context.BuildpackInfo.SBOMFormats with
        | (_, some err) => ({}, some err)
        | (sbomFormatter, none) =>
          match buildCommand system context runtimeConfig with
          | (_, _, some err) => ({}, some err)
          | (command, args, none) =>
            match buildProcesses config system context runtimeConfig command args with
            | (_, some err) => ({}, some err)
            | (processes, none) =>
              match buildPortChooserLayer config context with
              | (_, some err) => ({}, some err)
              | (portChooserLayer, none) =>
                ({ Layers := [portChooserLayer],
                   Launch := { Processes := processes, SBOM := some sbomFormatter } }, none)

/-- The `RuntimeConfig` that `configParser.Parse` hands to `Build` on this input (line 55). -/
def builtConfig (configParser : ConfigParser) (context : BuildContext) : RuntimeConfig :=
  (configParser.Parse (filepathJoin [context.WorkingDir, "*.runtimeconfig.json"])).1

/-! ## Sample collaborators

Fixed-answer implementations of the three interfaces and of the environment, in the manner of
the generated fakes `fakes/config_parser.go`, `fakes/project_parser.go` and
`fakes/buildpack_config_parser.go`. -/

/-- An environment holding exactly the listed variables. -/
def fakeEnv (vars : List (String × String)) : Env := fun name => vars.lookup name

/-- A `buildpack.yml` parser that finds no project path. -/
def fakeBuildpackYMLParser : BuildpackConfigParser :=
  { ParseProjectPath := fun _ => ("", none) }

/-- A runtime config parser that returns the given config and error. -/
def fakeConfigParser (config : RuntimeConfig) (err : Option GoError) : ConfigParser :=
  { Parse := fun _ => (config, err) }

/-- A project parser that finds the given project file (the empty path for none) and reads the
given version and flags from it, without errors. -/
def fakeProjectParser (projectFile version : String) (aspNet node : Bool) : ProjectParser :=
  { FindProjectFile := fun _ => (projectFile, none)
    ParseVersion := fun _ => (version, none)
    ASPNetIsRequired := fun _ => (aspNet, none)
    NodeIsRequired := fun _ => (node, none) }

/-- The workspace `/workspace`. -/
def workspaceContext : DetectContext := { WorkingDir := "/workspace" }

/-- Scenario A: an app `MyApp` with runtime version `6.0.3`, no ASP.NET version, not
executable. -/
def scenarioAConfig : RuntimeConfig :=
  { Path := "/workspace/MyApp.runtimeconfig.json", RuntimeVersion := "6.0.3", AppName := "MyApp" }

/-- The plan of scenario A without a project file: `[icu, dotnet-runtime 6.0.3,
dotnet-sdk 6.0.*]`. -/
def scenarioAPlan : List BuildPlanRequirement :=
  [{ Name := "icu", Metadata := { launch := some true } },
   { Name := "dotnet-runtime",
     Metadata := { version := some "6.0.3", versionSource := some "runtimeconfig.json",
                   launch := some true } },
   { Name := "dotnet-sdk",
     Metadata := { version := some "6.0.*", versionSource := some "runtimeconfig.json" } }]

/-- Scenario D: an app `MyApp` with runtime version `6.0.3` and ASP.NET version `6.0.3`, not
executable. -/
def scenarioDConfig : RuntimeConfig :=
  { Path := "/workspace/MyApp.runtimeconfig.json", RuntimeVersion := "6.0.3",
    ASPNETVersion := "6.0.3", AppName := "MyApp" }

/-- The plan of scenario D with `BP_LIVE_RELOAD_ENABLED=true` and a project file
`/workspace/MyApp.csproj` of version `6.0.0` that needs ASP.NET and Node. -/
def scenarioDPlan : List BuildPlanRequirement :=
  [{ Name := "icu", Metadata := { launch := some true } },
   { Name := "watchexec", Metadata := { launch := some true } },
   { Name := "dotnet-runtime",
     Metadata := { version := some "6.0.3", versionSource := some "runtimeconfig.json",
                   launch := some true } },
   { Name := "dotnet-sdk",
     Metadata := { version := some "6.0.*", versionSource := some "runtimeconfig.json" } },
   { Name := "dotnet-aspnetcore",
     Metadata := { version := some "6.0.3", versionSource := some "runtimeconfig.json",
                   launch := some true } },
   { Name := "dotnet-application", Metadata := { launch := some true } },
   { Name := "dotnet-runtime",
     Metadata := { version := some "6.0.0", versionSource := some "MyApp.csproj",
                   launch := some true } },
   { Name := "dotnet-sdk",
     Metadata := { version := some "6.0.*", versionSource := some "MyApp.csproj" } },
   { Name := "dotnet-aspnetcore",
     Metadata := { version := some "6.0.0", versionSource := some "MyApp.csproj",
                   launch := some true } },
   { Name := "node",
     Metadata := { versionSource := some "MyApp.csproj", launch := some true } }]

/-- The plan of scenario D without live reload and without a project file:
`[icu, dotnet-runtime 6.0.3, dotnet-sdk 6.0.*, dotnet-aspnetcore 6.0.3]`. -/
def scenarioDRuntimePlan : List BuildPlanRequirement :=
  [{ Name := "icu", Metadata := { launch := some true } },
   { Name := "dotnet-runtime",
     Metadata := { version := some "6.0.3", versionSource := some "runtimeconfig.json",
                   launch := some true } },
   { Name := "dotnet-sdk",
     Metadata := { version := some "6.0.*", versionSource := some "runtimeconfig.json" } },
   { Name := "dotnet-aspnetcore",
     Metadata := { version := some "6.0.3", versionSource := some "runtimeconfig.json",
                   launch := some true } }]

/-- A `buildpack.yml` parser that fails with the given error. -/
def failingBuildpackYMLParser (err : GoError) : BuildpackConfigParser :=
  { ParseProjectPath := fun _ => ("", some err) }

/-- A bill of materials generator that succeeds, with a formatter that keeps the formats. -/
def fakeSBOMGenerator : SBOMGenerator :=
  { Generate := fun _ => ({ InFormats := fun formats => ({ formats := formats }, none) }, none) }

/-- An operating system on which `env.Marshal` and `os.Chmod` succeed, `os.Stat` succeeds
exactly on the listed paths and reports not-exist on the others, and a walk of any root makes
the listed calls. -/
def fakeSystem (files : List String) (walk : List WalkEntry) : System :=
  { Marshal := fun _ => none
    Stat := fun path => if files.contains path then none else some GoError.errNotExist
    Walk := fun _ => walk
    Chmod := fun _ _ => none }

/-- The build context of the workspace `/workspace` with the buildpack in `/cnb/buildpack`; the
layers directory hands out an empty layer of the given name in `/layers`. -/
def workspaceBuildContext : BuildContext :=
  { WorkingDir := "/workspace"
    CNBPath := "/cnb/buildpack"
    Layers := { Get := fun name => ({ Path := filepathJoin ["/layers", name], Name := name },
                                    none) } }

/-- Scenario B: the app `MyApp` as a framework-dependent executable. -/
def scenarioBConfig : RuntimeConfig :=
  { Path := "/workspace/MyApp.runtimeconfig.json", RuntimeVersion := "6.0.3", AppName := "MyApp",
    Executable := true }

/-- An app whose runtime config file is `/workspace/.runtimeconfig.json`, so that the app name,
the file name without `.runtimeconfig.json`, is empty; not executable. -/
def emptyNameConfig : RuntimeConfig :=
  { Path := "/workspace/.runtimeconfig.json", RuntimeVersion := "6.0.3", AppName := "" }

/-! ## Lemmas on `strings.SplitN` and `strings.Join` -/

theorem indexByte_of_not_mem {b : Char} : ∀ {s : List Char}, b ∉ s → indexByte s b = none
  | [], _ => rfl
  | c :: cs, h => by
    have hc : c ≠ b := fun e => h (e ▸ List.mem_cons_self _ _)
    have hcs : b ∉ cs := fun m => h (List.mem_cons_of_mem _ m)
    simp [indexByte, hc, indexByte_of_not_mem hcs]

theorem indexByte_append_cons {b : Char} :
    ∀ (a t : List Char), b ∉ a → indexByte (a ++ b :: t) b = some a.length
  | [], t, _ => by simp [indexByte]
  | c :: cs, t, h => by
    have hc : c ≠ b := fun e => h (e ▸ List.mem_cons_self _ _)
    have hcs : b ∉ cs := fun m => h (List.mem_cons_of_mem _ m)
    simp [indexByte, hc, indexByte_append_cons cs t hcs]

theorem genSplitLoop_of_not_mem (sep : Char) (k : Nat) (s : List Char) (h : sep ∉ s) :
    genSplitLoop sep k s = [s] := by
  cases k with
  | zero => rfl
  | succ k => simp [genSplitLoop, indexByte_of_not_mem h]

theorem genSplitLoop_append_cons (sep : Char) (k : Nat) (a t : List Char) (h : sep ∉ a) :
    genSplitLoop sep (k + 1) (a ++ sep :: t) = a :: genSplitLoop sep k t := by
  simp [genSplitLoop, indexByte_append_cons a t h]

/-- Once the fuel covers the length of the string, more fuel changes nothing. -/
theorem genSplitLoop_fuel (sep : Char) :
    ∀ (k k' : Nat) (s : List Char), s.length ≤ k → s.length ≤ k' →
      genSplitLoop sep k s = genSplitLoop sep k' s := by
  intro k
  induction k with
  | zero =>
    intro k' s h _
    have hs : s = [] := List.length_eq_zero.mp (Nat.le_zero.mp h)
    subst hs
    cases k' <;> simp [genSplitLoop, indexByte]
  | succ k ih =>
    intro k' s h h'
    cases k' with
    | zero =>
      have hs : s = [] := List.length_eq_zero.mp (Nat.le_zero.mp h')
      subst hs
      simp [genSplitLoop, indexByte]
    | succ k' =>
      simp only [genSplitLoop]
      cases hm : indexByte s sep with
      | none => rfl
      | some m =>
        have h1 : (s.drop (m + 1)).length ≤ k := by rw [List.length_drop]; omega
        have h2 : (s.drop (m + 1)).length ≤ k' := by rw [List.length_drop]; omega
        simp only [ih k' (s.drop (m + 1)) h1 h2]

theorem length_le_utf8Len : ∀ cs : List Char, cs.length ≤ String.utf8Len cs
  | [] => Nat.le_refl _
  | c :: cs => by
    have h := length_le_utf8Len cs
    have hc := Char.utf8Size_pos c
    simp only [List.length_cons, String.utf8Len_cons]
    omega

/-- The call `strings.SplitN(s, ".", 3)` runs the splitting loop with two cuts: the bound
`len(s)+1` on the number of pieces never cuts a split short. -/
theorem SplitN_three (s : String) (sep : Char) :
    SplitN s sep 3 = (genSplitLoop sep 2 s.data).map String.mk := by
  have hlen : s.data.length ≤ s.utf8ByteSize := length_le_utf8Len s.data
  unfold SplitN
  simp only [show ((3 : Int) = 0) = False from by simp, if_false,
    show ((3 : Int) < 0) = False from by simp, show (3 : Int).toNat = 3 from rfl]
  by_cases hcap : 3 > s.utf8ByteSize + 1
  · simp only [hcap, if_true, Nat.add_sub_cancel]
    rw [genSplitLoop_fuel sep s.utf8ByteSize 2 s.data hlen (by omega)]
  · simp only [hcap, if_false]

theorem Join_cons_cons (a b : String) (t : List String) (sep : String) :
    Join (a :: b :: t) sep = a ++ sep ++ Join (b :: t) sep := by
  have key : ∀ (t : List String) (x y : String),
      t.foldl (fun acc e => acc ++ sep ++ e) (x ++ sep ++ y)
        = x ++ sep ++ t.foldl (fun acc e => acc ++ sep ++ e) y := by
    intro t
    induction t with
    | nil => intro x y; rfl
    | cons c t ih =>
      intro x y
      simp only [List.foldl_cons]
      rw [← ih x (y ++ sep ++ c)]
      simp only [String.append_assoc]
  simp only [Join, List.foldl_cons]
  exact key t a b

/-! ## `getSDKVersion` on one, two and three pieces -/

theorem getSDKVersion_unfold (version : String) (h : version ≠ "") :
    getSDKVersion version =
      (let pieces := (genSplitLoop '.' 2 version.data).map String.mk
       let pieces := if pieces.length < 3 then pieces ++ ["*"] else pieces
       Join (getSDKVersionLoop pieces.length 0 pieces []) ".") := by
  simp only [getSDKVersion, h, if_false, SplitN_three]

theorem append_dot_star (x : String) : x ++ "." ++ "*" = x ++ ".*" := by
  rw [String.append_assoc]
  rfl

theorem getSDKVersion_one (version : String) (a : List Char) (h : version ≠ "")
    (hs : genSplitLoop '.' 2 version.data = [a]) :
    getSDKVersion version = if String.mk a = "*" then "*" else String.mk a ++ ".*" := by
  rw [getSDKVersion_unfold version h, hs]
  by_cases ha : String.mk a = "*"
  · simp [getSDKVersionLoop, Join, ha]
  · simp [getSDKVersionLoop, Join, ha]
    exact append_dot_star _

theorem getSDKVersion_two (version : String) (a b : List Char) (h : version ≠ "")
    (hs : genSplitLoop '.' 2 version.data = [a, b])
    (ha : String.mk a ≠ "*") (hb : String.mk b ≠ "*") :
    getSDKVersion version = String.mk a ++ "." ++ String.mk b ++ ".*" := by
  rw [getSDKVersion_unfold version h, hs]
  simp [getSDKVersionLoop, Join, ha, hb]
  exact append_dot_star _

theorem getSDKVersion_three (version : String) (a b c : List Char) (h : version ≠ "")
    (hs : genSplitLoop '.' 2 version.data = [a, b, c])
    (ha : String.mk a ≠ "*") (hb : String.mk b ≠ "*") :
    getSDKVersion version = String.mk a ++ "." ++ String.mk b ++ ".*" := by
  rw [getSDKVersion_unfold version h, hs]
  simp [getSDKVersionLoop, Join, ha, hb]
  exact append_dot_star _

theorem ne_empty_of_data_append_cons (v : String) (a t : List Char) (c : Char)
    (h : v.data = a ++ c :: t) : v ≠ "" := by
  intro e
  subst e
  simp at h

/-- A version whose first two components are `c0` and `c1`, neither of them `"*"`. -/
theorem getSDKVersion_two_components (c0 c1 rest : String)
    (h0 : '.' ∉ c0.data) (h1 : '.' ∉ c1.data)
    (hrest : rest = "" ∨ ∃ r : String, rest = "." ++ r)
    (n0 : c0 ≠ "*") (n1 : c1 ≠ "*") :
    getSDKVersion (c0 ++ "." ++ c1 ++ rest) = c0 ++ "." ++ c1 ++ ".*" := by
  rcases hrest with hr | ⟨r, hr⟩
  · subst hr
    have hd : (c0 ++ "." ++ c1 ++ "").data = c0.data ++ '.' :: c1.data := by
      simp [String.data_append]
    have hs : genSplitLoop '.' 2 (c0 ++ "." ++ c1 ++ "").data = [c0.data, c1.data] := by
      rw [hd, genSplitLoop_append_cons '.' 1 _ _ h0, genSplitLoop_of_not_mem '.' 1 _ h1]
    exact getSDKVersion_two _ c0.data c1.data (ne_empty_of_data_append_cons _ _ _ _ hd) hs n0 n1
  · subst hr
    have hd : (c0 ++ "." ++ c1 ++ ("." ++ r)).data = c0.data ++ '.' :: (c1.data ++ '.' :: r.data) := by
      simp [String.data_append]
    have hs : genSplitLoop '.' 2 (c0 ++ "." ++ c1 ++ ("." ++ r)).data
        = [c0.data, c1.data, r.data] := by
      rw [hd, genSplitLoop_append_cons '.' 1 _ _ h0, genSplitLoop_append_cons '.' 0 _ _ h1]
      rfl
    exact getSDKVersion_three _ c0.data c1.data r.data
      (ne_empty_of_data_append_cons _ _ _ _ hd) hs n0 n1

/-- Every version string with a dot in it has a first and a second component: it is
`c0 ++ "." ++ c1 ++ rest` with no dot in `c0` and `c1`, and `rest` empty or starting with the
second dot. -/
theorem exists_two_components (version : String) (h : '.' ∈ version.data) :
    ∃ c0 c1 rest : String, version = c0 ++ "." ++ c1 ++ rest
      ∧ '.' ∉ c0.data ∧ '.' ∉ c1.data ∧ (rest = "" ∨ ∃ r : String, rest = "." ++ r) := by
  obtain ⟨a, t, hat, ha⟩ := List.eq_append_cons_of_mem h
  by_cases ht : '.' ∈ t
  · obtain ⟨b, r, hbr, hb⟩ := List.eq_append_cons_of_mem ht
    refine ⟨String.mk a, String.mk b, "." ++ String.mk r, ?_, ha, hb, Or.inr ⟨String.mk r, rfl⟩⟩
    apply String.ext
    simp [String.data_append, hat, hbr]
  · refine ⟨String.mk a, String.mk t, "", ?_, ha, ht, Or.inl rfl⟩
    apply String.ext
    simp [String.data_append, hat]

/-! ## The SDK version resolver -/

/-- C1: `getSDKVersion` pins major and minor and wildcards the patch. For every version string
`c0 ++ "." ++ c1 ++ rest` whose first two dot-separated components are `c0` and `c1` (neither
contains a dot; `rest` is empty or starts at the second dot), with neither `c0` nor `c1` equal
to `"*"`, the result is `c0 ++ "." ++ c1 ++ ".*"`, whatever follows the second dot. -/
theorem getSDKVersion_pins_major_minor (c0 c1 rest : String)
    (h0 : '.' ∉ c0.data) (h1 : '.' ∉ c1.data)
    (hrest : rest = "" ∨ ∃ r : String, rest = "." ++ r)
    (n0 : c0 ≠ "*") (n1 : c1 ≠ "*") :
    getSDKVersion (c0 ++ "." ++ c1 ++ rest) = c0 ++ "." ++ c1 ++ ".*" :=
  getSDKVersion_two_components c0 c1 rest h0 h1 hrest n0 n1

/-- The versions `"6.0.3"`, `"6.0"` and `"6.0.3.4"` all resolve to `"6.0.*"`. -/
theorem getSDKVersion_pins_major_minor_witness :
    getSDKVersion ("6" ++ "." ++ "0" ++ ".3") = "6" ++ "." ++ "0" ++ ".*"
    ∧ getSDKVersion "6.0.3" = "6.0.*" ∧ getSDKVersion "6.0" = "6.0.*"
    ∧ getSDKVersion "6.0.3.4" = "6.0.*" :=
  ⟨getSDKVersion_pins_major_minor "6" "0" ".3" (by decide) (by decide)
      (Or.inr ⟨"3", by decide⟩) (by decide) (by decide),
    by decide, by decide, by decide⟩

/-- C2 fails as stated: the one-component version `"6"` resolves to `"6.*"`, not to `"*"`
(`SplitN` gives one piece, one `"*"` is appended, and only the last index is replaced). -/
theorem getSDKVersion_single_component_counterexample :
    '.' ∉ ("6" : String).data ∧ ("6" : String) ≠ "" ∧ getSDKVersion "6" = "6.*"
    ∧ getSDKVersion "6" ≠ "*" := by
  decide

/-- C2 (amended): for every non-empty one-component version string `c` (no dot in it),
`getSDKVersion` keeps the component and wildcards the rest, `c ++ ".*"`; only for the component
`"*"` itself is the result the universal wildcard `"*"`. -/
theorem getSDKVersion_single_component (c : String) (hne : c ≠ "") (h : '.' ∉ c.data) :
    getSDKVersion c = if c = "*" then "*" else c ++ ".*" :=
  getSDKVersion_one c c.data hne (genSplitLoop_of_not_mem '.' 2 c.data h)

/-- The one-component versions `"6"` and `"*"`. -/
theorem getSDKVersion_single_component_witness :
    getSDKVersion "6" = (if ("6" : String) = "*" then "*" else "6" ++ ".*")
    ∧ getSDKVersion "*" = "*" :=
  ⟨getSDKVersion_single_component "6" (by decide) (by decide), by decide⟩

/-- C3 fails as stated: the two-component version `"6.0"` resolves to `"6.0.*"`, while the first
`min(N-1, 2) = 1` components followed by `"*"` are `"6.*"`; and the one-component version `"8"`
resolves to `"8.*"`, while `min(N-1, 2) = 0` components followed by `"*"` are `"*"`. -/
theorem getSDKVersion_components_counterexample :
    Join ["6", "0"] "." = "6.0" ∧ getSDKVersion "6.0" = "6.0.*"
    ∧ Join ((["6", "0"] : List String).take (min (2 - 1) 2) ++ ["*"]) "." = "6.*"
    ∧ Join ["8"] "." = "8" ∧ getSDKVersion "8" = "8.*"
    ∧ Join ((["8"] : List String).take (min (1 - 1) 2) ++ ["*"]) "." = "*" := by
  decide

/-- C3 (amended): for every non-empty version string made of `N ≥ 1` dot-separated components
(the string is the components joined with `"."`, no component contains a dot), none of which
is `"*"`, `getSDKVersion` returns the first `min(N, 2)` components followed by a single `"*"`
component, joined with `"."`: `N = 1` gives `c0.*`, `N ≥ 2` gives `c0.c1.*`. -/
theorem getSDKVersion_components (comps : List String)
    (hdot : ∀ c ∈ comps, '.' ∉ c.data) (hstar : ∀ c ∈ comps, c ≠ "*")
    (hne : Join comps "." ≠ "") :
    getSDKVersion (Join comps ".")
      = Join (comps.take (min comps.length 2) ++ ["*"]) "." := by
  match comps, hdot, hstar, hne with
  | [], _, _, hne => exact absurd rfl hne
  | [c0], hdot, hstar, hne =>
    have e : Join [c0] "." = c0 := rfl
    rw [e] at hne ⊢
    rw [getSDKVersion_one c0 c0.data hne
      (genSplitLoop_of_not_mem '.' 2 c0.data (hdot c0 (by simp)))]
    have hs : c0 ≠ "*" := hstar c0 (by simp)
    simp [hs, Join]
    exact (append_dot_star c0).symm
  | [c0, c1], hdot, hstar, _ =>
    have e : Join [c0, c1] "." = c0 ++ "." ++ c1 ++ "" := by simp [Join]
    rw [e, getSDKVersion_two_components c0 c1 "" (hdot c0 (by simp)) (hdot c1 (by simp))
      (Or.inl rfl) (hstar c0 (by simp)) (hstar c1 (by simp))]
    simp [Join]
    exact (append_dot_star _).symm
  | c0 :: c1 :: c2 :: tl, hdot, hstar, _ =>
    have e : Join (c0 :: c1 :: c2 :: tl) "." = c0 ++ "." ++ c1 ++ ("." ++ Join (c2 :: tl) ".") := by
      rw [Join_cons_cons, Join_cons_cons]
      simp only [String.append_assoc]
    rw [e, getSDKVersion_two_components c0 c1 _ (hdot c0 (by simp)) (hdot c1 (by simp))
      (Or.inr ⟨_, rfl⟩) (hstar c0 (by simp)) (hstar c1 (by simp))]
    simp [Join]
    exact (append_dot_star _).symm

/-- The versions `"6"`, `"6.0"` and `"6.0.3.4"` as lists of components. -/
theorem getSDKVersion_components_witness :
    getSDKVersion (Join ["6", "0", "3", "4"] ".")
      = Join ((["6", "0", "3", "4"] : List String).take
          (min ([("6" : String), "0", "3", "4"]).length 2) ++ ["*"]) "."
    ∧ getSDKVersion "6.0.3.4" = "6.0.*" ∧ getSDKVersion "6.0" = "6.0.*"
    ∧ getSDKVersion "6" = "6.*" :=
  ⟨getSDKVersion_components ["6", "0", "3", "4"] (by decide) (by decide) (by decide),
    by decide, by decide, by decide⟩

/-- C4: the empty version string resolves to the universal wildcard `"*"`. -/
theorem getSDKVersion_empty : getSDKVersion "" = "*" := by
  decide

/-! ## The stages of `Detect` -/

theorem detectLiveReload_ok (env : Env) (reqs r : List BuildPlanRequirement)
    (h : detectLiveReload env reqs = (r, none)) :
    (r = reqs ++ [{ Name := "watchexec", Metadata := { launch := some true } }]
        ∧ ∃ v, env "BP_LIVE_RELOAD_ENABLED" = some v ∧ ParseBool v = (true, none))
    ∨ (r = reqs ∧ ¬ ∃ v, env "BP_LIVE_RELOAD_ENABLED" = some v ∧ ParseBool v = (true, none)) := by
  unfold detectLiveReload at h
  cases he : env "BP_LIVE_RELOAD_ENABLED" with
  | none =>
    simp only [he, Prod.mk.injEq, and_true] at h
    exact Or.inr ⟨h.symm, by simp⟩
  | some v =>
    simp only [he] at h
    rcases hp : ParseBool v with ⟨b, _ | e⟩
    · simp only [hp] at h
      cases b with
      | true =>
        simp only [if_true, Prod.mk.injEq, and_true] at h
        exact Or.inl ⟨h.symm, v, rfl, hp⟩
      | false =>
        simp only [Bool.false_eq_true, if_false, Prod.mk.injEq, and_true] at h
        refine Or.inr ⟨h.symm, ?_⟩
        rintro ⟨w, hw, hw'⟩
        cases hw
        rw [hp] at hw'
        cases hw'
    · simp [hp] at h

theorem detectRuntimeConfig_eq (config : RuntimeConfig) (reqs : List BuildPlanRequirement) :
    detectRuntimeConfig config reqs = reqs ++
      (if config.RuntimeVersion ≠ "" then
        [{ Name := "dotnet-runtime",
           Metadata := { version := some config.RuntimeVersion,
                         versionSource := some "runtimeconfig.json",
                         launch := some true } }]
        ++ (if config.Executable = false then
              [{ Name := "dotnet-sdk",
                 Metadata := { version := some (getSDKVersion config.RuntimeVersion),
                               versionSource := some "runtimeconfig.json" } }]
            else [])
        ++ (if config.ASPNETVersion ≠ "" then
              [{ Name := "dotnet-aspnetcore",
                 Metadata := { version := some config.ASPNETVersion,
                               versionSource := some "runtimeconfig.json",
                               launch := some true } }]
            else [])
      else []) := by
  unfold detectRuntimeConfig
  by_cases hr : config.RuntimeVersion = "" <;> by_cases ha : config.ASPNETVersion = ""
    <;> cases he : config.Executable <;> simp [hr, ha]

theorem detectProjectFile_ok (projectParser : ProjectParser) (projectFile : String)
    (reqs r : List BuildPlanRequirement)
    (h : detectProjectFile projectParser projectFile reqs = (r, none)) :
    ∃ version aspNet node,
      projectParser.ParseVersion projectFile = (version, none)
      ∧ projectParser.ASPNetIsRequired projectFile = (aspNet, none)
      ∧ projectParser.NodeIsRequired projectFile = (node, none)
      ∧ r = reqs ++
          [{ Name := "dotnet-application", Metadata := { launch := some true } },
           { Name := "dotnet-runtime",
             Metadata := { version := some version,
                           versionSource := some (filepathBase projectFile),
                           launch := some true } },
           { Name := "dotnet-sdk",
             Metadata := { version := some (getSDKVersion version),
                           versionSource := some (filepathBase projectFile) } }]
          ++ (if aspNet = true then
                [{ Name := "dotnet-aspnetcore",
                   Metadata := { version := some version,
                                 versionSource := some (filepathBase projectFile),
                                 launch := some true } }]
              else [])
          ++ (if node = true then
                [{ Name := "node",
                   Metadata := { versionSource := some (filepathBase projectFile),
                                 launch := some true } }]
              else []) := by
  unfold detectProjectFile at h
  rcases hv : projectParser.ParseVersion projectFile with ⟨version, _ | e⟩
  · simp only [hv] at h
    rcases ha : projectParser.ASPNetIsRequired projectFile with ⟨aspNet, _ | e⟩
    · simp only [ha] at h
      rcases hn : projectParser.NodeIsRequired projectFile with ⟨node, _ | e⟩
      · simp only [hn] at h
        refine ⟨version, aspNet, node, rfl, rfl, rfl, ?_⟩
        cases aspNet <;> cases node <;> simp at h <;> simp [← h]
      · simp [hn] at h
    · simp [ha] at h
  · simp [hv] at h

/-- What a successful run of `Detect` went through: the live-reload stage succeeded, a runtime
config or a project file was found, and the requirements are those of the three stages. -/
theorem Detect_ok (env : Env) (buildpackYMLParser : BuildpackConfigParser)
    (configParser : ConfigParser) (projectParser : ProjectParser) (context : DetectContext)
    (res : DetectResult)
    (h : Detect env buildpackYMLParser configParser projectParser context = (res, none)) :
    ∃ reqs1, detectLiveReload env [{ Name := "icu", Metadata := { launch := some true } }]
        = (reqs1, none)
      ∧ ¬ ((detectedConfig env buildpackYMLParser configParser context).Path = ""
            ∧ detectedProjectFile env buildpackYMLParser projectParser context = "")
      ∧ ((detectedProjectFile env buildpackYMLParser projectParser context = ""
            ∧ res.Plan.Requires
              = detectRuntimeConfig (detectedConfig env buildpackYMLParser configParser context)
                  reqs1)
        ∨ (detectedProjectFile env buildpackYMLParser projectParser context ≠ ""
            ∧ detectProjectFile projectParser
                (detectedProjectFile env buildpackYMLParser projectParser context)
                (detectRuntimeConfig
                  (detectedConfig env buildpackYMLParser configParser context) reqs1)
              = (res.Plan.Requires, none))) := by
  unfold Detect at h
  unfold detectedConfig detectedProjectFile detectedConfigResult detectedProjectFileResult
    detectedRoot
  rcases h1 : detectProjectPath env buildpackYMLParser context with ⟨projectPath, _ | e⟩
  · simp only [h1] at h ⊢
    rcases h2 : detectLiveReload env [{ Name := "icu", Metadata := { launch := some true } }]
      with ⟨reqs1, _ | e⟩
    · simp only [h2] at h
      refine ⟨reqs1, rfl, ?_⟩
      rcases h3 : configParser.Parse
        (filepathJoin [detectRoot context projectPath, "*.runtimeconfig.json"]) with ⟨config, err⟩
      simp only [h3] at h ⊢
      by_cases hc : err ≠ none ∧ errorsIsNotExist err = false
      · rw [if_pos hc] at h
        simp only [Prod.mk.injEq] at h
        exact absurd h.2 hc.1
      · rw [if_neg hc] at h
        rcases h4 : projectParser.FindProjectFile (detectRoot context projectPath)
          with ⟨projectFile, _ | e⟩
        · simp only [h4] at h ⊢
          by_cases hn : config.Path = "" ∧ projectFile = ""
          · rw [if_pos hn] at h
            simp at h
          · rw [if_neg hn] at h
            refine ⟨hn, ?_⟩
            by_cases hp : projectFile = ""
            · rw [if_neg (not_not.mpr hp)] at h
              simp only [Prod.mk.injEq, and_true] at h
              exact Or.inl ⟨hp, by rw [← h]⟩
            · rw [if_pos hp] at h
              refine Or.inr ⟨hp, ?_⟩
              rcases h5 : detectProjectFile projectParser projectFile
                (detectRuntimeConfig config reqs1) with ⟨reqs3, _ | e⟩
              · simp only [h5, Prod.mk.injEq, and_true] at h
                rw [← h]
              · simp [h5] at h
        · simp [h4] at h
    · simp [h2] at h
  · simp [h1] at h

/-- The plan of a successful run of `Detect`: `icu`, then the live-reload part `W`, then the
requirements read off the runtime config, then the part `P` read off the project file. -/
theorem Detect_plan (env : Env) (buildpackYMLParser : BuildpackConfigParser)
    (configParser : ConfigParser) (projectParser : ProjectParser) (context : DetectContext)
    (res : DetectResult)
    (h : Detect env buildpackYMLParser configParser projectParser context = (res, none)) :
    ∃ W P : List BuildPlanRequirement,
      ((W = [{ Name := "watchexec", Metadata := { launch := some true } }]
          ∧ ∃ v, env "BP_LIVE_RELOAD_ENABLED" = some v ∧ ParseBool v = (true, none))
        ∨ (W = [] ∧ ¬ ∃ v, env "BP_LIVE_RELOAD_ENABLED" = some v ∧ ParseBool v = (true, none)))
      ∧ ¬ ((detectedConfig env buildpackYMLParser configParser context).Path = ""
            ∧ detectedProjectFile env buildpackYMLParser projectParser context = "")
      ∧ ((detectedProjectFile env buildpackYMLParser projectParser context = "" ∧ P = [])
        ∨ (detectedProjectFile env buildpackYMLParser projectParser context ≠ ""
          ∧ ∃ version aspNet node,
            projectParser.ParseVersion
                (detectedProjectFile env buildpackYMLParser projectParser context)
              = (version, none)
            ∧ projectParser.ASPNetIsRequired
                (detectedProjectFile env buildpackYMLParser projectParser context)
              = (aspNet, none)
            ∧ projectParser.NodeIsRequired
                (detectedProjectFile env buildpackYMLParser projectParser context)
              = (node, none)
            ∧ P = [{ Name := "dotnet-application", Metadata := { launch := some true } },
                   { Name := "dotnet-runtime",
                     Metadata := { version := some version,
                                   versionSource := some (filepathBase
                                     (detectedProjectFile env buildpackYMLParser projectParser
                                       context)),
                                   launch := some true } },
                   { Name := "dotnet-sdk",
                     Metadata := { version := some (getSDKVersion version),
                                   versionSource := some (filepathBase
                                     (detectedProjectFile env buildpackYMLParser projectParser
                                       context)) } }]
                ++ (if aspNet = true then
                      [{ Name := "dotnet-aspnetcore",
                         Metadata := { version := some version,
                                       versionSource := some (filepathBase
                                         (detectedProjectFile env buildpackYMLParser
                                           projectParser context)),
                                       launch := some true } }]
                    else [])
                ++ (if node = true then
                      [{ Name := "node",
                         Metadata := { versionSource := some (filepathBase
                                         (detectedProjectFile env buildpackYMLParser
                                           projectParser context)),
                                       launch := some true } }]
                    else [])))
      ∧ res.Plan.Requires
          = [{ Name := "icu", Metadata := { launch := some true } }] ++ W
            ++ detectRuntimeConfig (detectedConfig env buildpackYMLParser configParser context) []
            ++ P := by
  obtain ⟨reqs1, h1, h2, h3⟩ :=
    Detect_ok env buildpackYMLParser configParser projectParser context res h
  have hW := detectLiveReload_ok env _ reqs1 h1
  have hD : ∀ reqs, detectRuntimeConfig
      (detectedConfig env buildpackYMLParser configParser context) reqs
      = reqs ++ detectRuntimeConfig
          (detectedConfig env buildpackYMLParser configParser context) [] := by
    intro reqs
    rw [detectRuntimeConfig_eq _ reqs, detectRuntimeConfig_eq _ []]
    simp
  rcases hW with ⟨hr, hon⟩ | ⟨hr, hoff⟩
  · refine ⟨[{ Name := "watchexec", Metadata := { launch := some true } }], ?_⟩
    rcases h3 with ⟨hp, hreq⟩ | ⟨hp, hreq⟩
    · refine ⟨[], Or.inl ⟨rfl, hon⟩, h2, Or.inl ⟨hp, rfl⟩, ?_⟩
      rw [hreq, hD, hr]
      simp
    · obtain ⟨version, aspNet, node, hv, ha, hn, hP⟩ := detectProjectFile_ok _ _ _ _ hreq
      refine ⟨_, Or.inl ⟨rfl, hon⟩, h2, Or.inr ⟨hp, version, aspNet, node, hv, ha, hn, rfl⟩, ?_⟩
      rw [hP, hD, hr]
      simp
  · refine ⟨[], ?_⟩
    rcases h3 with ⟨hp, hreq⟩ | ⟨hp, hreq⟩
    · refine ⟨[], Or.inr ⟨rfl, hoff⟩, h2, Or.inl ⟨hp, rfl⟩, ?_⟩
      rw [hreq, hD, hr]
      simp
    · obtain ⟨version, aspNet, node, hv, ha, hn, hP⟩ := detectProjectFile_ok _ _ _ _ hreq
      refine ⟨_, Or.inr ⟨rfl, hoff⟩, h2, Or.inr ⟨hp, version, aspNet, node, hv, ha, hn, rfl⟩, ?_⟩
      rw [hP, hD, hr]
      simp

theorem detectLiveReload_no_error (env : Env) (reqs : List BuildPlanRequirement)
    (h : ∀ v, env "BP_LIVE_RELOAD_ENABLED" = some v → (ParseBool v).2 = none) :
    (detectLiveReload env reqs).2 = none := by
  unfold detectLiveReload
  cases he : env "BP_LIVE_RELOAD_ENABLED" with
  | none => rfl
  | some v =>
    have hv := h v he
    rcases hp : ParseBool v with ⟨b, _ | e⟩
    · cases b <;> simp [hp]
    · rw [hp] at hv
      cases hv

theorem detectLiveReload_prefix (env : Env) (reqs : List BuildPlanRequirement) :
    reqs <+: (detectLiveReload env reqs).1 := by
  unfold detectLiveReload
  cases env "BP_LIVE_RELOAD_ENABLED" with
  | none => exact List.prefix_refl _
  | some v =>
    rcases hp : ParseBool v with ⟨b, _ | e⟩
    · cases b <;> simp [hp]
    · simp [hp]

theorem detectRuntimeConfig_prefix (config : RuntimeConfig) (reqs : List BuildPlanRequirement) :
    reqs <+: detectRuntimeConfig config reqs := by
  rw [detectRuntimeConfig_eq]
  exact List.prefix_append _ _

theorem detectProjectFile_prefix (projectParser : ProjectParser) (projectFile : String)
    (reqs : List BuildPlanRequirement) :
    reqs <+: (detectProjectFile projectParser projectFile reqs).1 := by
  unfold detectProjectFile
  rcases hv : projectParser.ParseVersion projectFile with ⟨version, _ | e⟩
  · rcases ha : projectParser.ASPNetIsRequired projectFile with ⟨aspNet, _ | e⟩
    · rcases hn : projectParser.NodeIsRequired projectFile with ⟨node, _ | e⟩
      · cases aspNet <;> cases node <;> simp [List.append_assoc]
      · cases aspNet <;> simp [List.append_assoc]
    · simp [List.append_assoc]
  · simp

/-- Every requirement of a plan `Detect` returns, with the condition under which it was
appended. -/
theorem Detect_mem (env : Env) (buildpackYMLParser : BuildpackConfigParser)
    (configParser : ConfigParser) (projectParser : ProjectParser) (context : DetectContext)
    (res : DetectResult)
    (h : Detect env buildpackYMLParser configParser projectParser context = (res, none))
    (r : BuildPlanRequirement) (hr : r ∈ res.Plan.Requires) :
    r = { Name := "icu", Metadata := { launch := some true } }
    ∨ (r = { Name := "watchexec", Metadata := { launch := some true } }
        ∧ ∃ v, env "BP_LIVE_RELOAD_ENABLED" = some v ∧ ParseBool v = (true, none))
    ∨ (r = { Name := "dotnet-runtime",
             Metadata := {
               version := some
                 (detectedConfig env buildpackYMLParser configParser context).RuntimeVersion,
               versionSource := some "runtimeconfig.json",
               launch := some true } }
        ∧ (detectedConfig env buildpackYMLParser configParser context).RuntimeVersion ≠ "")
    ∨ (r = { Name := "dotnet-sdk",
             Metadata := {
               version := some (getSDKVersion
                 (detectedConfig env buildpackYMLParser configParser context).RuntimeVersion),
               versionSource := some "runtimeconfig.json" } }
        ∧ (detectedConfig env buildpackYMLParser configParser context).RuntimeVersion ≠ ""
        ∧ (detectedConfig env buildpackYMLParser configParser context).Executable = false)
    ∨ (r = { Name := "dotnet-aspnetcore",
             Metadata := {
               version := some
                 (detectedConfig env buildpackYMLParser configParser context).ASPNETVersion,
               versionSource := some "runtimeconfig.json",
               launch := some true } }
        ∧ (detectedConfig env buildpackYMLParser configParser context).RuntimeVersion ≠ ""
        ∧ (detectedConfig env buildpackYMLParser configParser context).ASPNETVersion ≠ "")
    ∨ (detectedProjectFile env buildpackYMLParser projectParser context ≠ ""
        ∧ ∃ version,
          projectParser.ParseVersion
              (detectedProjectFile env buildpackYMLParser projectParser context)
            = (version, none)
          ∧ (r = { Name := "dotnet-application", Metadata := { launch := some true } }
            ∨ r = { Name := "dotnet-runtime",
                    Metadata := {
                      version := some version,
                      versionSource := some (filepathBase
                        (detectedProjectFile env buildpackYMLParser projectParser context)),
                      launch := some true } }
            ∨ r = { Name := "dotnet-sdk",
                    Metadata := {
                      version := some (getSDKVersion version),
                      versionSource := some (filepathBase
                        (detectedProjectFile env buildpackYMLParser projectParser context)) } }
            ∨ (r = { Name := "dotnet-aspnetcore",
                     Metadata := {
                       version := some version,
                       versionSource := some (filepathBase
                         (detectedProjectFile env buildpackYMLParser projectParser context)),
                       launch := some true } }
                ∧ projectParser.ASPNetIsRequired
                    (detectedProjectFile env buildpackYMLParser projectParser context)
                  = (true, none))
            ∨ (r = { Name := "node",
                     Metadata := {
                       versionSource := some (filepathBase
                         (detectedProjectFile env buildpackYMLParser projectParser context)),
                       launch := some true } }
                ∧ projectParser.NodeIsRequired
                    (detectedProjectFile env buildpackYMLParser projectParser context)
                  = (true, none)))) := by
  obtain ⟨W, P, hW, _, hP, hreq⟩ :=
    Detect_plan env buildpackYMLParser configParser projectParser context res h
  rw [hreq, detectRuntimeConfig_eq] at hr
  simp only [List.mem_append, List.mem_singleton, List.nil_append] at hr
  rcases hr with ((hr | hr) | hr) | hr
  · exact Or.inl hr
  · rcases hW with ⟨hW, hon⟩ | ⟨hW, _⟩
    · subst hW
      simp only [List.mem_singleton] at hr
      exact Or.inr (Or.inl ⟨hr, hon⟩)
    · subst hW
      simp at hr
  · split at hr
    · rename_i hv
      simp only [List.mem_append, List.mem_singleton] at hr
      rcases hr with (hr | hr) | hr
      · exact Or.inr (Or.inr (Or.inl ⟨hr, hv⟩))
      · split at hr
        · rename_i hx
          simp only [List.mem_singleton] at hr
          exact Or.inr (Or.inr (Or.inr (Or.inl ⟨hr, hv, hx⟩)))
        · simp at hr
      · split at hr
        · rename_i ha
          simp only [List.mem_singleton] at hr
          exact Or.inr (Or.inr (Or.inr (Or.inr (Or.inl ⟨hr, hv, ha⟩))))
        · simp at hr
    · simp at hr
  · rcases hP with ⟨_, hP⟩ | ⟨hpf, version, aspNet, node, hpv, hpa, hpn, hP⟩
    · subst hP
      simp at hr
    · refine Or.inr (Or.inr (Or.inr (Or.inr (Or.inr ⟨hpf, version, hpv, ?_⟩))))
      subst hP
      simp only [List.mem_append, List.mem_cons, List.mem_singleton, List.not_mem_nil,
        or_false] at hr
      rcases hr with ((hr | hr | hr) | hr) | hr
      · exact Or.inl hr
      · exact Or.inr (Or.inl hr)
      · exact Or.inr (Or.inr (Or.inl hr))
      · split at hr
        · rename_i ha
          simp only [List.mem_singleton] at hr
          subst ha
          exact Or.inr (Or.inr (Or.inr (Or.inl ⟨hr, hpa⟩)))
        · simp at hr
      · split at hr
        · rename_i hn
          simp only [List.mem_singleton] at hr
          subst hn
          exact Or.inr (Or.inr (Or.inr (Or.inr ⟨hr, hpn⟩)))
        · simp at hr

/-! ## The requirement plan of `Detect` -/

/-- C5 fails as stated. With a runtime config that has a path but no runtime version (a
self-contained app) and no project file, `Detect` succeeds with the plan `[icu]`: the guard of
line 120 reads `config.Path`, not `config.RuntimeVersion`. And with neither a config nor a
project file but `BP_LIVE_RELOAD_ENABLED=maybe`, `Detect` returns the generic parse error of
line 63, which comes before the guard. -/
theorem Detect_no_artifact_counterexample :
    Detect (fakeEnv []) fakeBuildpackYMLParser
        (fakeConfigParser { Path := "/workspace/MyApp.runtimeconfig.json", RuntimeVersion := "",
                            AppName := "MyApp" } none)
        (fakeProjectParser "" "" false false) workspaceContext
      = ({ Plan := { Requires := [{ Name := "icu", Metadata := { launch := some true } }] } },
         none)
    ∧ Detect (fakeEnv [("BP_LIVE_RELOAD_ENABLED", "maybe")]) fakeBuildpackYMLParser
        (fakeConfigParser {} (some GoError.errNotExist))
        (fakeProjectParser "" "" false false) workspaceContext
      = ({}, some (GoError.wrapError "failed to parse BP_LIVE_RELOAD_ENABLED: "
            (GoError.numError "ParseBool" "maybe" GoError.errSyntax) "")) := by
  constructor <;> decide

/-- C5 (amended): for all inputs with neither a runtime config nor a project file
(`RuntimeConfig.Path` is empty and `FindProjectFile` returns the empty path without error),
on which no earlier step fails (the project path is resolved, `BP_LIVE_RELOAD_ENABLED` is unset
or a valid boolean, and `configParser.Parse` succeeds or fails with a not-exist error), `Detect`
returns the detection-negative failure `packit.Fail` with the message
"no *.runtimeconfig.json or project file found" and the empty result. -/
theorem Detect_no_artifact (env : Env) (buildpackYMLParser : BuildpackConfigParser)
    (configParser : ConfigParser) (projectParser : ProjectParser) (context : DetectContext)
    (hpath : (detectProjectPath env buildpackYMLParser context).2 = none)
    (hreload : ∀ v, env "BP_LIVE_RELOAD_ENABLED" = some v → (ParseBool v).2 = none)
    (hparse : (detectedConfigResult env buildpackYMLParser configParser context).2 = none
      ∨ errorsIsNotExist (detectedConfigResult env buildpackYMLParser configParser context).2
          = true)
    (hcfg : (detectedConfig env buildpackYMLParser configParser context).Path = "")
    (hpf : detectedProjectFileResult env buildpackYMLParser projectParser context = ("", none)) :
    Detect env buildpackYMLParser configParser projectParser context
      = ({}, some (GoError.fail "no *.runtimeconfig.json or project file found")) := by
  unfold detectedConfig detectedConfigResult detectedRoot at hcfg
  unfold detectedConfigResult detectedRoot at hparse
  unfold detectedProjectFileResult detectedRoot at hpf
  unfold Detect
  rcases h1 : detectProjectPath env buildpackYMLParser context with ⟨projectPath, e1⟩
  rw [h1] at hpath hparse hcfg hpf
  simp only at hpath hparse hcfg hpf
  subst hpath
  simp only
  have h2' := detectLiveReload_no_error env
    [{ Name := "icu", Metadata := { launch := some true } }] hreload
  rcases h2 : detectLiveReload env [{ Name := "icu", Metadata := { launch := some true } }]
    with ⟨reqs1, e2⟩
  rw [h2] at h2'
  simp only at h2'
  subst h2'
  simp only
  rcases h3 : configParser.Parse
    (filepathJoin [detectRoot context projectPath, "*.runtimeconfig.json"]) with ⟨config, err⟩
  rw [h3] at hparse hcfg
  simp only at hparse hcfg
  have hc : ¬ (err ≠ none ∧ errorsIsNotExist err = false) := by
    rintro ⟨hne, hf⟩
    rcases hparse with hp | hp
    · exact hne hp
    · rw [hp] at hf
      cases hf
  simp only [h3]
  rw [if_neg hc]
  simp only [hpf]
  rw [if_pos ⟨hcfg, trivial⟩]

/-- An empty workspace: no `*.runtimeconfig.json` (the parser reports not-exist) and no project
file. -/
theorem Detect_no_artifact_witness :
    Detect (fakeEnv []) fakeBuildpackYMLParser (fakeConfigParser {} (some GoError.errNotExist))
        (fakeProjectParser "" "" false false) workspaceContext
      = ({}, some (GoError.fail "no *.runtimeconfig.json or project file found")) :=
  Detect_no_artifact (fakeEnv []) fakeBuildpackYMLParser
    (fakeConfigParser {} (some GoError.errNotExist)) (fakeProjectParser "" "" false false)
    workspaceContext (by decide) (by intro v hv; cases hv) (Or.inr (by decide)) (by decide)
    (by decide)

/-- C6 fails as stated in its second half. `Detect` names the version source of a
project-derived requirement after the project file, so for an executable app whose project
parser reports a project file with the base name `runtimeconfig.json`, the plan holds a
`dotnet-sdk` requirement with version-source `"runtimeconfig.json"`. -/
theorem Detect_runtime_then_sdk_counterexample :
    Detect (fakeEnv []) fakeBuildpackYMLParser
        (fakeConfigParser { Path := "/workspace/MyApp.runtimeconfig.json",
                            RuntimeVersion := "6.0.3", AppName := "MyApp",
                            Executable := true } none)
        (fakeProjectParser "/workspace/runtimeconfig.json" "6.0.3" false false) workspaceContext
      = ({ Plan := { Requires := [
            { Name := "icu", Metadata := { launch := some true } },
            { Name := "dotnet-runtime",
              Metadata := { version := some "6.0.3", versionSource := some "runtimeconfig.json",
                            launch := some true } },
            { Name := "dotnet-application", Metadata := { launch := some true } },
            { Name := "dotnet-runtime",
              Metadata := { version := some "6.0.3", versionSource := some "runtimeconfig.json",
                            launch := some true } },
            { Name := "dotnet-sdk",
              Metadata := { version := some "6.0.*",
                            versionSource := some "runtimeconfig.json" } }] } }, none) := by
  decide

/-- C6 (amended): in every plan `Detect` returns, if the runtime config has a non-empty
`RuntimeVersion` and `Executable` is false, a `dotnet-runtime` requirement (version =
`RuntimeVersion`, version-source `"runtimeconfig.json"`, launch = true) is immediately followed
by a `dotnet-sdk` requirement (version = `getSDKVersion(RuntimeVersion)`, version-source
`"runtimeconfig.json"`, no launch key); if `Executable` is true, no `dotnet-sdk` requirement
with version-source `"runtimeconfig.json"` is in the plan, provided the base name of the project
file, when one is found, is not itself `runtimeconfig.json`. -/
theorem Detect_runtime_then_sdk (env : Env) (buildpackYMLParser : BuildpackConfigParser)
    (configParser : ConfigParser) (projectParser : ProjectParser) (context : DetectContext)
    (res : DetectResult)
    (h : Detect env buildpackYMLParser configParser projectParser context = (res, none)) :
    ((detectedConfig env buildpackYMLParser configParser context).RuntimeVersion ≠ ""
        ∧ (detectedConfig env buildpackYMLParser configParser context).Executable = false →
      ∃ pre post, res.Plan.Requires = pre ++
        [{ Name := "dotnet-runtime",
           Metadata := {
             version := some
               (detectedConfig env buildpackYMLParser configParser context).RuntimeVersion,
             versionSource := some "runtimeconfig.json",
             launch := some true } },
         { Name := "dotnet-sdk",
           Metadata := {
             version := some (getSDKVersion
               (detectedConfig env buildpackYMLParser configParser context).RuntimeVersion),
             versionSource := some "runtimeconfig.json",
             launch := none } }] ++ post)
    ∧ ((detectedConfig env buildpackYMLParser configParser context).Executable = true →
        (detectedProjectFile env buildpackYMLParser projectParser context ≠ "" →
          filepathBase (detectedProjectFile env buildpackYMLParser projectParser context)
            ≠ "runtimeconfig.json") →
        ∀ r ∈ res.Plan.Requires,
          ¬ (r.Name = "dotnet-sdk" ∧ r.Metadata.versionSource = some "runtimeconfig.json")) := by
  obtain ⟨W, P, hW, _, hP, hreq⟩ :=
    Detect_plan env buildpackYMLParser configParser projectParser context res h
  rw [detectRuntimeConfig_eq] at hreq
  constructor
  · rintro ⟨hv, hx⟩
    rw [if_pos hv, if_pos hx] at hreq
    refine ⟨[{ Name := "icu", Metadata := { launch := some true } }] ++ W,
      (if (detectedConfig env buildpackYMLParser configParser context).ASPNETVersion ≠ "" then
        [{ Name := "dotnet-aspnetcore",
           Metadata := {
             version := some
               (detectedConfig env buildpackYMLParser configParser context).ASPNETVersion,
             versionSource := some "runtimeconfig.json",
             launch := some true } }]
       else []) ++ P, ?_⟩
    rw [hreq]
    simp
  · intro hx hbase r hr
    rw [hreq] at hr
    have hx' : ¬ (detectedConfig env buildpackYMLParser configParser context).Executable
        = false := by simp [hx]
    rw [if_neg hx'] at hr
    rintro ⟨hname, hsrc⟩
    simp only [List.mem_append, List.mem_singleton, List.nil_append] at hr
    rcases hr with ((hr | hr) | hr) | hr
    · subst hr
      simp at hname
    · rcases hW with ⟨hW, _⟩ | ⟨hW, _⟩
      · subst hW
        simp only [List.mem_singleton] at hr
        subst hr
        simp at hname
      · subst hW
        simp at hr
    · split at hr
      · simp only [List.append_nil, List.mem_append, List.mem_singleton] at hr
        rcases hr with hr | hr
        · subst hr
          simp at hname
        · split at hr
          · simp only [List.mem_singleton] at hr
            subst hr
            simp at hname
          · simp at hr
      · simp at hr
    · rcases hP with ⟨_, hP⟩ | ⟨hpf, version, aspNet, node, _, _, _, hP⟩
      · subst hP
        simp at hr
      · have hb := hbase hpf
        subst hP
        simp only [List.mem_append, List.mem_cons, List.mem_singleton, List.not_mem_nil,
          or_false] at hr
        rcases hr with ((hr | hr | hr) | hr) | hr
        · subst hr
          simp at hname
        · subst hr
          simp at hname
        · subst hr
          simp at hsrc
          exact hb hsrc
        · split at hr
          · simp only [List.mem_singleton] at hr
            subst hr
            simp at hname
          · simp at hr
        · split at hr
          · simp only [List.mem_singleton] at hr
            subst hr
            simp at hname
          · simp at hr

/-- Scenario A: runtime version `6.0.3`, not executable, no ASP.NET version, no project file
gives the plan `[icu, dotnet-runtime 6.0.3, dotnet-sdk 6.0.*]`. -/
theorem Detect_runtime_then_sdk_witness :
    Detect (fakeEnv []) fakeBuildpackYMLParser (fakeConfigParser scenarioAConfig none)
        (fakeProjectParser "" "" false false) workspaceContext
      = ({ Plan := { Requires := scenarioAPlan } }, none)
    ∧ ∃ pre post : List BuildPlanRequirement,
        scenarioAPlan = pre ++
          [{ Name := "dotnet-runtime",
             Metadata := { version := some "6.0.3", versionSource := some "runtimeconfig.json",
                           launch := some true } },
           { Name := "dotnet-sdk",
             Metadata := { version := some (getSDKVersion "6.0.3"),
                           versionSource := some "runtimeconfig.json" } }] ++ post :=
  ⟨by decide,
    (Detect_runtime_then_sdk (fakeEnv []) fakeBuildpackYMLParser
      (fakeConfigParser scenarioAConfig none) (fakeProjectParser "" "" false false)
      workspaceContext { Plan := { Requires := scenarioAPlan } } (by decide)).1
      ⟨by decide, by decide⟩⟩

/-- C7: requirement order. In every plan `Detect` returns, the first requirement is `icu` with
launch = true; a `watchexec` requirement can only be the second one; the plan is `icu`, then
the live-reload part `W` (empty or `watchexec`), then the requirements `D` derived from the
runtime config, a sublist of dotnet-runtime, dotnet-sdk, dotnet-aspnetcore (all with
version-source `"runtimeconfig.json"`) in that order, then the requirements `P` derived from the
project file, a sublist of dotnet-application, dotnet-runtime, dotnet-sdk, dotnet-aspnetcore,
node in that order; and every step keeps the requirements it was given as a prefix of the ones
it hands on, so none is removed or reordered. -/
theorem Detect_requirement_order (env : Env) (buildpackYMLParser : BuildpackConfigParser)
    (configParser : ConfigParser) (projectParser : ProjectParser) (context : DetectContext)
    (res : DetectResult)
    (h : Detect env buildpackYMLParser configParser projectParser context = (res, none)) :
    res.Plan.Requires.head? = some { Name := "icu", Metadata := { launch := some true } }
    ∧ (∀ (i : Nat) (r : BuildPlanRequirement),
        res.Plan.Requires[i]? = some r → r.Name = "watchexec" → i = 1)
    ∧ (∃ W D P : List BuildPlanRequirement,
        res.Plan.Requires = [{ Name := "icu", Metadata := { launch := some true } }] ++ W ++ D ++ P
        ∧ (W = [] ∨ W = [{ Name := "watchexec", Metadata := { launch := some true } }])
        ∧ List.Sublist D
            [{ Name := "dotnet-runtime",
               Metadata := {
                 version := some
                   (detectedConfig env buildpackYMLParser configParser context).RuntimeVersion,
                 versionSource := some "runtimeconfig.json",
                 launch := some true } },
             { Name := "dotnet-sdk",
               Metadata := {
                 version := some (getSDKVersion
                   (detectedConfig env buildpackYMLParser configParser context).RuntimeVersion),
                 versionSource := some "runtimeconfig.json" } },
             { Name := "dotnet-aspnetcore",
               Metadata := {
                 version := some
                   (detectedConfig env buildpackYMLParser configParser context).ASPNETVersion,
                 versionSource := some "runtimeconfig.json",
                 launch := some true } }]
        ∧ ∃ version : String, List.Sublist P
            [{ Name := "dotnet-application", Metadata := { launch := some true } },
             { Name := "dotnet-runtime",
               Metadata := {
                 version := some version,
                 versionSource := some (filepathBase
                   (detectedProjectFile env buildpackYMLParser projectParser context)),
                 launch := some true } },
             { Name := "dotnet-sdk",
               Metadata := {
                 version := some (getSDKVersion version),
                 versionSource := some (filepathBase
                   (detectedProjectFile env buildpackYMLParser projectParser context)) } },
             { Name := "dotnet-aspnetcore",
               Metadata := {
                 version := some version,
                 versionSource := some (filepathBase
                   (detectedProjectFile env buildpackYMLParser projectParser context)),
                 launch := some true } },
             { Name := "node",
               Metadata := {
                 versionSource := some (filepathBase
                   (detectedProjectFile env buildpackYMLParser projectParser context)),
                 launch := some true } }])
    ∧ (∀ reqs, reqs <+: (detectLiveReload env reqs).1)
    ∧ (∀ config reqs, reqs <+: detectRuntimeConfig config reqs)
    ∧ (∀ projectFile reqs, reqs <+: (detectProjectFile projectParser projectFile reqs).1) := by
  obtain ⟨W, P, hW, _, hP, hreq⟩ :=
    Detect_plan env buildpackYMLParser configParser projectParser context res h
  have hW' : W = [] ∨ W = [{ Name := "watchexec", Metadata := { launch := some true } }] := by
    rcases hW with ⟨hW, _⟩ | ⟨hW, _⟩
    · exact Or.inr hW
    · exact Or.inl hW
  -- the names of the requirements after `icu` and `W`
  have hDname : ∀ r ∈ detectRuntimeConfig
      (detectedConfig env buildpackYMLParser configParser context) [],
      r.Name ≠ "watchexec" := by
    intro r hr
    rw [detectRuntimeConfig_eq] at hr
    simp only [List.nil_append] at hr
    split at hr
    · simp only [List.mem_append, List.mem_singleton] at hr
      rcases hr with (hr | hr) | hr
      · subst hr; simp
      · split at hr
        · simp only [List.mem_singleton] at hr
          subst hr; simp
        · simp at hr
      · split at hr
        · simp only [List.mem_singleton] at hr
          subst hr; simp
        · simp at hr
    · simp at hr
  have hPname : ∀ r ∈ P, r.Name ≠ "watchexec" := by
    intro r hr
    rcases hP with ⟨_, hP⟩ | ⟨_, version, aspNet, node, _, _, _, hP⟩
    · subst hP
      simp at hr
    · subst hP
      simp only [List.mem_append, List.mem_cons, List.mem_singleton, List.not_mem_nil,
        or_false] at hr
      rcases hr with ((hr | hr | hr) | hr) | hr
      · subst hr; simp
      · subst hr; simp
      · subst hr; simp
      · split at hr
        · simp only [List.mem_singleton] at hr
          subst hr; simp
        · simp at hr
      · split at hr
        · simp only [List.mem_singleton] at hr
          subst hr; simp
        · simp at hr
  have hrest : ∀ r ∈ detectRuntimeConfig
      (detectedConfig env buildpackYMLParser configParser context) [] ++ P,
      r.Name ≠ "watchexec" := by
    intro r hr
    rcases List.mem_append.mp hr with hr | hr
    · exact hDname r hr
    · exact hPname r hr
  refine ⟨?_, ?_, ?_, detectLiveReload_prefix env, detectRuntimeConfig_prefix,
    detectProjectFile_prefix projectParser⟩
  · rw [hreq]
    simp
  · intro i r hi hname
    have hreq' : res.Plan.Requires
        = { Name := "icu", Metadata := { launch := some true } }
          :: (W ++ (detectRuntimeConfig
                (detectedConfig env buildpackYMLParser configParser context) [] ++ P)) := by
      rw [hreq]
      simp
    rw [hreq'] at hi
    cases i with
    | zero =>
      simp only [List.getElem?_cons_zero, Option.some.injEq] at hi
      subst hi
      exact absurd hname (by decide)
    | succ j =>
      rw [List.getElem?_cons_succ] at hi
      rcases hW' with hW0 | hW1
      · subst hW0
        rw [List.nil_append] at hi
        exact absurd hname (hrest r (List.getElem?_mem hi))
      · subst hW1
        rw [List.singleton_append] at hi
        cases j with
        | zero => rfl
        | succ k =>
          rw [List.getElem?_cons_succ] at hi
          exact absurd hname (hrest r (List.getElem?_mem hi))
  · refine ⟨W, _, P, hreq, hW', ?_, ?_⟩
    · rw [detectRuntimeConfig_eq]
      simp only [List.nil_append]
      by_cases hv : (detectedConfig env buildpackYMLParser configParser context).RuntimeVersion
          = ""
      · simp [hv]
      · by_cases ha : (detectedConfig env buildpackYMLParser configParser context).ASPNETVersion
            = ""
        <;> cases hx : (detectedConfig env buildpackYMLParser configParser context).Executable
        <;> simp [hv, ha]
    · rcases hP with ⟨_, hP⟩ | ⟨_, version, aspNet, node, _, _, _, hP⟩
      · exact ⟨"", by subst hP; simp⟩
      · refine ⟨version, ?_⟩
        subst hP
        cases aspNet <;> cases node <;> simp

/-- Scenario D with live reload and the project file `/workspace/MyApp.csproj`: the plan starts
with `icu`, and `watchexec` is its second requirement. -/
theorem Detect_requirement_order_witness :
    Detect (fakeEnv [("BP_LIVE_RELOAD_ENABLED", "true")]) fakeBuildpackYMLParser
        (fakeConfigParser scenarioDConfig none)
        (fakeProjectParser "/workspace/MyApp.csproj" "6.0.0" true true) workspaceContext
      = ({ Plan := { Requires := scenarioDPlan } }, none)
    ∧ scenarioDPlan.head? = some { Name := "icu", Metadata := { launch := some true } }
    ∧ ∀ (i : Nat) (r : BuildPlanRequirement),
        scenarioDPlan[i]? = some r → r.Name = "watchexec" → i = 1 :=
  ⟨by decide,
    (Detect_requirement_order (fakeEnv [("BP_LIVE_RELOAD_ENABLED", "true")])
      fakeBuildpackYMLParser (fakeConfigParser scenarioDConfig none)
      (fakeProjectParser "/workspace/MyApp.csproj" "6.0.0" true true) workspaceContext
      { Plan := { Requires := scenarioDPlan } } (by decide)).1,
    (Detect_requirement_order (fakeEnv [("BP_LIVE_RELOAD_ENABLED", "true")])
      fakeBuildpackYMLParser (fakeConfigParser scenarioDConfig none)
      (fakeProjectParser "/workspace/MyApp.csproj" "6.0.0" true true) workspaceContext
      { Plan := { Requires := scenarioDPlan } } (by decide)).2.1⟩

/-- C8: for every input on which `Detect` succeeds with a non-empty project file path `p`, the
parsed version `v` and the flags `aspNet` and `node` were read without error, and the plan is
the requirements accumulated before the project stage (icu, the live-reload and the runtime
config requirements) followed by exactly: `dotnet-application` (launch, no version);
`dotnet-runtime` (version `v`, version-source the base name of `p`, launch); `dotnet-sdk`
(version `getSDKVersion v`, version-source the base name of `p`, no launch key); then
`dotnet-aspnetcore` (version `v`, version-source the base name of `p`, launch) if and only if
`ASPNetIsRequired(p)`; then `node` (no version, version-source the base name of `p`, launch) if
and only if `NodeIsRequired(p)`. When no project file is found, the plan is the accumulated
requirements alone. -/
theorem Detect_project_suffix (env : Env) (buildpackYMLParser : BuildpackConfigParser)
    (configParser : ConfigParser) (projectParser : ProjectParser) (context : DetectContext)
    (res : DetectResult)
    (h : Detect env buildpackYMLParser configParser projectParser context = (res, none)) :
    (detectedProjectFile env buildpackYMLParser projectParser context ≠ "" →
      ∃ version aspNet node,
        projectParser.ParseVersion
            (detectedProjectFile env buildpackYMLParser projectParser context) = (version, none)
        ∧ projectParser.ASPNetIsRequired
            (detectedProjectFile env buildpackYMLParser projectParser context) = (aspNet, none)
        ∧ projectParser.NodeIsRequired
            (detectedProjectFile env buildpackYMLParser projectParser context) = (node, none)
        ∧ res.Plan.Requires
          = detectRuntimeConfig (detectedConfig env buildpackYMLParser configParser context)
              (detectLiveReload env [{ Name := "icu", Metadata := { launch := some true } }]).1
            ++ [{ Name := "dotnet-application", Metadata := { launch := some true } },
                { Name := "dotnet-runtime",
                  Metadata := {
                    version := some version,
                    versionSource := some (filepathBase
                      (detectedProjectFile env buildpackYMLParser projectParser context)),
                    launch := some true } },
                { Name := "dotnet-sdk",
                  Metadata := {
                    version := some (getSDKVersion version),
                    versionSource := some (filepathBase
                      (detectedProjectFile env buildpackYMLParser projectParser context)),
                    launch := none } }]
            ++ (if aspNet = true then
                  [{ Name := "dotnet-aspnetcore",
                     Metadata := {
                       version := some version,
                       versionSource := some (filepathBase
                         (detectedProjectFile env buildpackYMLParser projectParser context)),
                       launch := some true } }]
                else [])
            ++ (if node = true then
                  [{ Name := "node",
                     Metadata := {
                       version := none,
                       versionSource := some (filepathBase
                         (detectedProjectFile env buildpackYMLParser projectParser context)),
                       launch := some true } }]
                else []))
    ∧ (detectedProjectFile env buildpackYMLParser projectParser context = "" →
        res.Plan.Requires
          = detectRuntimeConfig (detectedConfig env buildpackYMLParser configParser context)
              (detectLiveReload env [{ Name := "icu", Metadata := { launch := some true } }]).1)
    := by
  obtain ⟨reqs1, h1, _, h3⟩ :=
    Detect_ok env buildpackYMLParser configParser projectParser context res h
  rw [h1]
  constructor
  · intro hpf
    rcases h3 with ⟨hp, _⟩ | ⟨_, hreq⟩
    · exact absurd hp hpf
    · exact detectProjectFile_ok _ _ _ _ hreq
  · intro hpf
    rcases h3 with ⟨_, hreq⟩ | ⟨hp, _⟩
    · exact hreq
    · exact absurd hpf hp

/-- Scenario D with live reload and the project file `/workspace/MyApp.csproj` of version
`6.0.0` that needs ASP.NET and Node: the plan ends with the five project requirements. -/
theorem Detect_project_suffix_witness :
    Detect (fakeEnv [("BP_LIVE_RELOAD_ENABLED", "true")]) fakeBuildpackYMLParser
        (fakeConfigParser scenarioDConfig none)
        (fakeProjectParser "/workspace/MyApp.csproj" "6.0.0" true true) workspaceContext
      = ({ Plan := { Requires := scenarioDPlan } }, none)
    ∧ filepathBase "/workspace/MyApp.csproj" = "MyApp.csproj"
    ∧ ∃ version aspNet node,
        (version, (none : Option GoError)) = ("6.0.0", none)
        ∧ (aspNet, (none : Option GoError)) = (true, none)
        ∧ (node, (none : Option GoError)) = (true, none)
        ∧ scenarioDPlan
          = scenarioDPlan.take 5
            ++ [{ Name := "dotnet-application", Metadata := { launch := some true } },
                { Name := "dotnet-runtime",
                  Metadata := { version := some version,
                                versionSource := some "MyApp.csproj",
                                launch := some true } },
                { Name := "dotnet-sdk",
                  Metadata := { version := some (getSDKVersion version),
                                versionSource := some "MyApp.csproj" } }]
            ++ (if aspNet = true then
                  [{ Name := "dotnet-aspnetcore",
                     Metadata := { version := some version,
                                   versionSource := some "MyApp.csproj",
                                   launch := some true } }]
                else [])
            ++ (if node = true then
                  [{ Name := "node",
                     Metadata := { versionSource := some "MyApp.csproj",
                                   launch := some true } }]
                else []) := by
  refine ⟨by decide, by decide, ?_⟩
  obtain ⟨version, aspNet, node, hv, ha, hn, hreq⟩ :=
    (Detect_project_suffix (fakeEnv [("BP_LIVE_RELOAD_ENABLED", "true")])
      fakeBuildpackYMLParser (fakeConfigParser scenarioDConfig none)
      (fakeProjectParser "/workspace/MyApp.csproj" "6.0.0" true true) workspaceContext
      { Plan := { Requires := scenarioDPlan } } (by decide)).1 (by decide)
  exact ⟨version, aspNet, node, hv.symm, ha.symm, hn.symm, hreq⟩

/-- C9 fails as stated in its "only if" half. With no runtime config at all (empty
`ASPNETVersion` and `RuntimeVersion`) and an ASP.NET project file whose base name is
`runtimeconfig.json`, the plan holds a `dotnet-aspnetcore` requirement with version-source
`"runtimeconfig.json"`: the project-derived requirement of lines 159-167. -/
theorem Detect_aspnetcore_counterexample :
    Detect (fakeEnv []) fakeBuildpackYMLParser (fakeConfigParser {} (some GoError.errNotExist))
        (fakeProjectParser "/workspace/src/runtimeconfig.json" "6.0.3" true false)
        workspaceContext
      = ({ Plan := { Requires := [
            { Name := "icu", Metadata := { launch := some true } },
            { Name := "dotnet-application", Metadata := { launch := some true } },
            { Name := "dotnet-runtime",
              Metadata := { version := some "6.0.3", versionSource := some "runtimeconfig.json",
                            launch := some true } },
            { Name := "dotnet-sdk",
              Metadata := { version := some "6.0.*",
                            versionSource := some "runtimeconfig.json" } },
            { Name := "dotnet-aspnetcore",
              Metadata := { version := some "6.0.3", versionSource := some "runtimeconfig.json",
                            launch := some true } }] } }, none) := by
  decide

/-- C9 (amended): in every plan `Detect` returns, if the runtime config's `ASPNETVersion` and
`RuntimeVersion` are both non-empty, the plan holds the requirement `dotnet-aspnetcore` with
version = `ASPNETVersion`, version-source `"runtimeconfig.json"` and launch = true; and,
provided the base name of the project file (when one is found) is not itself
`runtimeconfig.json`, every `dotnet-aspnetcore` requirement with version-source
`"runtimeconfig.json"` in the plan is that one: `ASPNETVersion` and `RuntimeVersion` are
non-empty, its version is `ASPNETVersion` and its launch flag is true. -/
theorem Detect_aspnetcore (env : Env) (buildpackYMLParser : BuildpackConfigParser)
    (configParser : ConfigParser) (projectParser : ProjectParser) (context : DetectContext)
    (res : DetectResult)
    (h : Detect env buildpackYMLParser configParser projectParser context = (res, none)) :
    ((detectedConfig env buildpackYMLParser configParser context).ASPNETVersion ≠ ""
        ∧ (detectedConfig env buildpackYMLParser configParser context).RuntimeVersion ≠ "" →
      { Name := "dotnet-aspnetcore",
        Metadata := {
          version := some
            (detectedConfig env buildpackYMLParser configParser context).ASPNETVersion,
          versionSource := some "runtimeconfig.json",
          launch := some true } } ∈ res.Plan.Requires)
    ∧ ((detectedProjectFile env buildpackYMLParser projectParser context ≠ "" →
          filepathBase (detectedProjectFile env buildpackYMLParser projectParser context)
            ≠ "runtimeconfig.json") →
        ∀ r ∈ res.Plan.Requires, r.Name = "dotnet-aspnetcore" →
          r.Metadata.versionSource = some "runtimeconfig.json" →
          (detectedConfig env buildpackYMLParser configParser context).ASPNETVersion ≠ ""
          ∧ (detectedConfig env buildpackYMLParser configParser context).RuntimeVersion ≠ ""
          ∧ r.Metadata.version
              = some (detectedConfig env buildpackYMLParser configParser context).ASPNETVersion
          ∧ r.Metadata.launch = some true) := by
  constructor
  · rintro ⟨ha, hv⟩
    obtain ⟨W, P, _, _, _, hreq⟩ :=
      Detect_plan env buildpackYMLParser configParser projectParser context res h
    rw [hreq, detectRuntimeConfig_eq, if_pos hv, if_pos ha]
    simp
  · intro hbase r hr hname hsrc
    rcases Detect_mem env buildpackYMLParser configParser projectParser context res h r hr with
      hr | ⟨hr, _⟩ | ⟨hr, _⟩ | ⟨hr, _⟩ | ⟨hr, hv, ha⟩ | ⟨hpf, version, _, hr⟩
    · subst hr; simp at hname
    · subst hr; simp at hname
    · subst hr; simp at hname
    · subst hr; simp at hname
    · subst hr
      exact ⟨ha, hv, rfl, rfl⟩
    · have hb := hbase hpf
      rcases hr with hr | hr | hr | ⟨hr, _⟩ | ⟨hr, _⟩
      · subst hr; simp at hname
      · subst hr; simp at hname
      · subst hr; simp at hname
      · subst hr
        simp at hsrc
        exact absurd hsrc hb
      · subst hr; simp at hname

/-- Scenario D: runtime version `6.0.3`, ASP.NET version `6.0.3`, not executable, no project
file; the plan holds `dotnet-aspnetcore` with version `6.0.3`, version-source
`runtimeconfig.json` and launch = true. -/
theorem Detect_aspnetcore_witness :
    Detect (fakeEnv []) fakeBuildpackYMLParser (fakeConfigParser scenarioDConfig none)
        (fakeProjectParser "" "" false false) workspaceContext
      = ({ Plan := { Requires := scenarioDRuntimePlan } }, none)
    ∧ { Name := "dotnet-aspnetcore",
        Metadata := { version := some "6.0.3", versionSource := some "runtimeconfig.json",
                      launch := some true } }
      ∈ scenarioDRuntimePlan :=
  ⟨by decide,
    (Detect_aspnetcore (fakeEnv []) fakeBuildpackYMLParser
      (fakeConfigParser scenarioDConfig none) (fakeProjectParser "" "" false false)
      workspaceContext { Plan := { Requires := scenarioDRuntimePlan } }
      (by decide)).1 ⟨by decide, by decide⟩⟩

/-- C10: in every plan `Detect` returns, a `watchexec` requirement is present if and only if
`BP_LIVE_RELOAD_ENABLED` is set and `strconv.ParseBool` reads it as true; every `watchexec`
requirement in the plan has launch = true and no version; and when the variable is unset or
parses as false, no requirement of the plan is named `watchexec`. -/
theorem Detect_watchexec (env : Env) (buildpackYMLParser : BuildpackConfigParser)
    (configParser : ConfigParser) (projectParser : ProjectParser) (context : DetectContext)
    (res : DetectResult)
    (h : Detect env buildpackYMLParser configParser projectParser context = (res, none)) :
    ((∃ r ∈ res.Plan.Requires, r.Name = "watchexec")
      ↔ ∃ v, env "BP_LIVE_RELOAD_ENABLED" = some v ∧ ParseBool v = (true, none))
    ∧ (∀ r ∈ res.Plan.Requires, r.Name = "watchexec" →
        r = { Name := "watchexec",
              Metadata := { version := none, versionSource := none, launch := some true } })
    ∧ ((env "BP_LIVE_RELOAD_ENABLED" = none
          ∨ ∃ v, env "BP_LIVE_RELOAD_ENABLED" = some v ∧ ParseBool v = (false, none)) →
        ∀ r ∈ res.Plan.Requires, r.Name ≠ "watchexec") := by
  have key : ∀ r ∈ res.Plan.Requires, r.Name = "watchexec" →
      r = { Name := "watchexec", Metadata := { launch := some true } }
      ∧ ∃ v, env "BP_LIVE_RELOAD_ENABLED" = some v ∧ ParseBool v = (true, none) := by
    intro r hr hname
    rcases Detect_mem env buildpackYMLParser configParser projectParser context res h r hr with
      hr | ⟨hr, hon⟩ | ⟨hr, _⟩ | ⟨hr, _⟩ | ⟨hr, _⟩ | ⟨_, version, _, hr⟩
    · subst hr; simp at hname
    · exact ⟨hr, hon⟩
    · subst hr; simp at hname
    · subst hr; simp at hname
    · subst hr; simp at hname
    · rcases hr with hr | hr | hr | ⟨hr, _⟩ | ⟨hr, _⟩ <;> (subst hr; simp at hname)
  refine ⟨⟨?_, ?_⟩, fun r hr hname => (key r hr hname).1, ?_⟩
  · rintro ⟨r, hr, hname⟩
    exact (key r hr hname).2
  · intro hon
    obtain ⟨W, P, hW, _, _, hreq⟩ :=
      Detect_plan env buildpackYMLParser configParser projectParser context res h
    rcases hW with ⟨hW, _⟩ | ⟨_, hoff⟩
    · refine ⟨{ Name := "watchexec", Metadata := { launch := some true } }, ?_, rfl⟩
      rw [hreq, hW]
      simp
    · exact absurd hon hoff
  · intro hoff r hr hname
    obtain ⟨v, hv, hp⟩ := (key r hr hname).2
    rcases hoff with hnone | ⟨w, hw, hp'⟩
    · rw [hnone] at hv
      cases hv
    · rw [hw] at hv
      cases hv
      rw [hp] at hp'
      cases hp'

/-- Scenario D with `BP_LIVE_RELOAD_ENABLED=true` and the project file
`/workspace/MyApp.csproj`: the plan holds a `watchexec` requirement. -/
theorem Detect_watchexec_witness :
    Detect (fakeEnv [("BP_LIVE_RELOAD_ENABLED", "true")]) fakeBuildpackYMLParser
        (fakeConfigParser scenarioDConfig none)
        (fakeProjectParser "/workspace/MyApp.csproj" "6.0.0" true true) workspaceContext
      = ({ Plan := { Requires := scenarioDPlan } }, none)
    ∧ ((∃ r ∈ scenarioDPlan, r.Name = "watchexec")
        ↔ ∃ v, fakeEnv [("BP_LIVE_RELOAD_ENABLED", "true")] "BP_LIVE_RELOAD_ENABLED" = some v
            ∧ ParseBool v = (true, none))
    ∧ ∃ r ∈ scenarioDPlan, r.Name = "watchexec" :=
  ⟨by decide,
    (Detect_watchexec (fakeEnv [("BP_LIVE_RELOAD_ENABLED", "true")]) fakeBuildpackYMLParser
      (fakeConfigParser scenarioDConfig none)
      (fakeProjectParser "/workspace/MyApp.csproj" "6.0.0" true true) workspaceContext
      { Plan := { Requires := scenarioDPlan } } (by decide)).1,
    by decide⟩

/-- What `Detect` does once the project path is resolved and the live-reload stage has passed:
lines 75-190. -/
theorem Detect_after_reload (env : Env) (buildpackYMLParser : BuildpackConfigParser)
    (configParser : ConfigParser) (projectParser : ProjectParser) (context : DetectContext)
    (hpath : (detectProjectPath env buildpackYMLParser context).2 = none)
    (hreload : ∀ v, env "BP_LIVE_RELOAD_ENABLED" = some v → (ParseBool v).2 = none) :
    Detect env buildpackYMLParser configParser projectParser context
      = (if (detectedConfigResult env buildpackYMLParser configParser context).2 ≠ none
            ∧ errorsIsNotExist
                (detectedConfigResult env buildpackYMLParser configParser context).2 = false then
          ({}, (detectedConfigResult env buildpackYMLParser configParser context).2)
        else
          match detectedProjectFileResult env buildpackYMLParser projectParser context with
          | (_, some err) => ({}, some err)
          | (projectFile, none) =>
            if (detectedConfig env buildpackYMLParser configParser context).Path = ""
                ∧ projectFile = "" then
              ({}, some (GoError.fail "no *.runtimeconfig.json or project file found"))
            else if projectFile ≠ "" then
              match detectProjectFile projectParser projectFile
                (detectRuntimeConfig (detectedConfig env buildpackYMLParser configParser context)
                  (detectLiveReload env
                    [{ Name := "icu", Metadata := { launch := some true } }]).1) with
              | (_, some err) => ({}, some err)
              | (requirements, none) => ({ Plan := { Requires := requirements } }, none)
            else
              ({ Plan := {
                  Requires := detectRuntimeConfig
                    (detectedConfig env buildpackYMLParser configParser context)
                    (detectLiveReload env
                      [{ Name := "icu", Metadata := { launch := some true } }]).1 } }, none)) := by
  unfold detectedConfig detectedConfigResult detectedProjectFileResult detectedRoot
  unfold Detect
  rcases h1 : detectProjectPath env buildpackYMLParser context with ⟨projectPath, e1⟩
  rw [h1] at hpath
  simp only at hpath
  subst hpath
  simp only
  have h2' := detectLiveReload_no_error env
    [{ Name := "icu", Metadata := { launch := some true } }] hreload
  rcases h2 : detectLiveReload env [{ Name := "icu", Metadata := { launch := some true } }]
    with ⟨reqs1, e2⟩
  rw [h2] at h2'
  simp only at h2'
  subst h2'
  simp only

theorem ParseBool_error (v : String) (h : (ParseBool v).2 ≠ none) :
    ParseBool v = (false, some (GoError.numError "ParseBool" v GoError.errSyntax)) := by
  unfold ParseBool at h ⊢
  split
  · rename_i h1
    rw [if_pos h1] at h
    exact absurd rfl h
  · rename_i h1
    rw [if_neg h1] at h
    split
    · rename_i h2
      rw [if_pos h2] at h
      exact absurd rfl h
    · rfl

theorem detectLiveReload_error (env : Env) (reqs : List BuildPlanRequirement) (v : String)
    (hv : env "BP_LIVE_RELOAD_ENABLED" = some v) (hbad : (ParseBool v).2 ≠ none) :
    detectLiveReload env reqs
      = (reqs, some (GoError.wrapError "failed to parse BP_LIVE_RELOAD_ENABLED: "
          (GoError.numError "ParseBool" v GoError.errSyntax) "")) := by
  unfold detectLiveReload
  simp only [hv, ParseBool_error v hbad]

/-! ## Failures of `Detect` and the launch flags -/

/-- C11 fails as stated: the project path is resolved first (lines 38-43). With
`BP_DOTNET_PROJECT_PATH` unset and a `buildpack.yml` that does not parse, `Detect` returns the
`buildpack.yml` error even though `BP_LIVE_RELOAD_ENABLED=maybe` is not a valid boolean. -/
theorem Detect_invalid_reload_counterexample :
    Detect (fakeEnv [("BP_LIVE_RELOAD_ENABLED", "maybe")])
        (failingBuildpackYMLParser (GoError.errorString "yaml: unmarshal errors"))
        (fakeConfigParser scenarioAConfig none) (fakeProjectParser "" "" false false)
        workspaceContext
      = ({}, some (GoError.wrapError "failed to parse buildpack.yml: "
            (GoError.errorString "yaml: unmarshal errors") "")) := by
  decide

/-- C11 (amended): when `BP_LIVE_RELOAD_ENABLED` is set to a value that is not a valid boolean,
`Detect` fails and returns the empty result with no partial plan, whatever the runtime config
and the project file contain; provided the project path is resolved without error
(`BP_DOTNET_PROJECT_PATH` is set or `buildpack.yml` parses), the error is the `strconv.ParseBool`
error wrapped with the text "failed to parse BP_LIVE_RELOAD_ENABLED: " before it; otherwise
`Detect` has already failed with the error of the project path, which is the error of the
`buildpack.yml` parser wrapped with the text "failed to parse buildpack.yml: " before it. -/
theorem Detect_invalid_reload (env : Env) (buildpackYMLParser : BuildpackConfigParser)
    (configParser : ConfigParser) (projectParser : ProjectParser) (context : DetectContext)
    (v : String) (hv : env "BP_LIVE_RELOAD_ENABLED" = some v) (hbad : (ParseBool v).2 ≠ none) :
    (Detect env buildpackYMLParser configParser projectParser context).1 = {}
    ∧ (Detect env buildpackYMLParser configParser projectParser context).2 ≠ none
    ∧ ((detectProjectPath env buildpackYMLParser context).2 = none →
        Detect env buildpackYMLParser configParser projectParser context
          = ({}, some (GoError.wrapError "failed to parse BP_LIVE_RELOAD_ENABLED: "
              (GoError.numError "ParseBool" v GoError.errSyntax) "")))
    ∧ (∀ e, (detectProjectPath env buildpackYMLParser context).2 = some e →
        Detect env buildpackYMLParser configParser projectParser context = ({}, some e))
    ∧ (env "BP_DOTNET_PROJECT_PATH" = none →
        ∀ projectPath err,
          buildpackYMLParser.ParseProjectPath
              (filepathJoin [context.WorkingDir, "buildpack.yml"]) = (projectPath, some err) →
          Detect env buildpackYMLParser configParser projectParser context
            = ({}, some (GoError.wrapError "failed to parse buildpack.yml: " err ""))) := by
  have h4 : ∀ e, (detectProjectPath env buildpackYMLParser context).2 = some e →
      Detect env buildpackYMLParser configParser projectParser context = ({}, some e) := by
    intro e he
    unfold Detect
    rcases h1 : detectProjectPath env buildpackYMLParser context with ⟨projectPath, _ | e1⟩
    · rw [h1] at he
      cases he
    · rw [h1] at he
      simp only [Option.some.injEq] at he
      subst he
      rfl
  have h5 : env "BP_DOTNET_PROJECT_PATH" = none →
      ∀ projectPath err,
        buildpackYMLParser.ParseProjectPath
            (filepathJoin [context.WorkingDir, "buildpack.yml"]) = (projectPath, some err) →
        Detect env buildpackYMLParser configParser projectParser context
          = ({}, some (GoError.wrapError "failed to parse buildpack.yml: " err "")) := by
    intro henv projectPath err hparse
    apply h4
    unfold detectProjectPath
    simp only [henv, hparse]
  refine ⟨?_, ?_, ?_, h4, h5⟩
  · unfold Detect
    rcases h1 : detectProjectPath env buildpackYMLParser context with ⟨projectPath, _ | e1⟩
    · simp [detectLiveReload_error env _ v hv hbad]
    · simp
  · unfold Detect
    rcases h1 : detectProjectPath env buildpackYMLParser context with ⟨projectPath, _ | e1⟩
    · simp [detectLiveReload_error env _ v hv hbad]
    · simp
  · unfold Detect
    rcases h1 : detectProjectPath env buildpackYMLParser context with ⟨projectPath, _ | e1⟩
    · simp [detectLiveReload_error env _ v hv hbad]
    · simp

/-- The toggle `BP_LIVE_RELOAD_ENABLED=maybe` on a workspace with neither a runtime config nor
a project file, which would otherwise be a negative detection; and the same toggle with a
`buildpack.yml` that does not parse, where the error is the one of `buildpack.yml`. -/
theorem Detect_invalid_reload_witness :
    Detect (fakeEnv [("BP_LIVE_RELOAD_ENABLED", "maybe")]) fakeBuildpackYMLParser
        (fakeConfigParser {} (some GoError.errNotExist)) (fakeProjectParser "" "" false false)
        workspaceContext
      = ({}, some (GoError.wrapError "failed to parse BP_LIVE_RELOAD_ENABLED: "
            (GoError.numError "ParseBool" "maybe" GoError.errSyntax) ""))
    ∧ Detect (fakeEnv [("BP_LIVE_RELOAD_ENABLED", "maybe")])
        (failingBuildpackYMLParser (GoError.errorString "yaml: line 1: did not find a key"))
        (fakeConfigParser scenarioDConfig none)
        (fakeProjectParser "/workspace/MyApp.csproj" "6.0.0" true true) workspaceContext
      = ({}, some (GoError.wrapError "failed to parse buildpack.yml: "
            (GoError.errorString "yaml: line 1: did not find a key") "")) :=
  ⟨(Detect_invalid_reload (fakeEnv [("BP_LIVE_RELOAD_ENABLED", "maybe")])
      fakeBuildpackYMLParser (fakeConfigParser {} (some GoError.errNotExist))
      (fakeProjectParser "" "" false false) workspaceContext "maybe" (by decide)
      (by decide)).2.2.1 (by decide),
    (Detect_invalid_reload (fakeEnv [("BP_LIVE_RELOAD_ENABLED", "maybe")])
      (failingBuildpackYMLParser (GoError.errorString "yaml: line 1: did not find a key"))
      (fakeConfigParser scenarioDConfig none)
      (fakeProjectParser "/workspace/MyApp.csproj" "6.0.0" true true) workspaceContext "maybe"
      (by decide) (by decide)).2.2.2.2 (by decide) ""
      (GoError.errorString "yaml: line 1: did not find a key") (by decide)⟩

/-- C12: launch-flag invariant. In every plan `Detect` returns, every requirement named
`dotnet-sdk` has no `launch` key in its metadata, and every requirement with any other name has
launch = true. -/
theorem Detect_launch_flags (env : Env) (buildpackYMLParser : BuildpackConfigParser)
    (configParser : ConfigParser) (projectParser : ProjectParser) (context : DetectContext)
    (res : DetectResult)
    (h : Detect env buildpackYMLParser configParser projectParser context = (res, none)) :
    ∀ r ∈ res.Plan.Requires,
      (r.Name = "dotnet-sdk" → r.Metadata.launch = none)
      ∧ (r.Name ≠ "dotnet-sdk" → r.Metadata.launch = some true) := by
  intro r hr
  rcases Detect_mem env buildpackYMLParser configParser projectParser context res h r hr with
    hr | ⟨hr, _⟩ | ⟨hr, _⟩ | ⟨hr, _⟩ | ⟨hr, _⟩ | ⟨_, version, _, hr⟩
  · subst hr; simp
  · subst hr; simp
  · subst hr; simp
  · subst hr; simp
  · subst hr; simp
  · rcases hr with hr | hr | hr | ⟨hr, _⟩ | ⟨hr, _⟩ <;> (subst hr; simp)

/-- Scenario D with live reload and a project file: the two `dotnet-sdk` requirements have no
launch key, the eight others have launch = true. -/
theorem Detect_launch_flags_witness :
    Detect (fakeEnv [("BP_LIVE_RELOAD_ENABLED", "true")]) fakeBuildpackYMLParser
        (fakeConfigParser scenarioDConfig none)
        (fakeProjectParser "/workspace/MyApp.csproj" "6.0.0" true true) workspaceContext
      = ({ Plan := { Requires := scenarioDPlan } }, none)
    ∧ ∀ r ∈ scenarioDPlan,
        (r.Name = "dotnet-sdk" → r.Metadata.launch = none)
        ∧ (r.Name ≠ "dotnet-sdk" → r.Metadata.launch = some true) :=
  ⟨by decide,
    Detect_launch_flags (fakeEnv [("BP_LIVE_RELOAD_ENABLED", "true")]) fakeBuildpackYMLParser
      (fakeConfigParser scenarioDConfig none)
      (fakeProjectParser "/workspace/MyApp.csproj" "6.0.0" true true) workspaceContext
      { Plan := { Requires := scenarioDPlan } } (by decide)⟩

/-- C13 fails as stated in its middle part: after a not-exist error `Detect` goes on with the
`RuntimeConfig` that `Parse` returned beside the error (line 75 keeps it), not with an empty
one. A parser that returns the config of scenario A together with a not-exist error yields the
plan of scenario A, whereas the empty config on the same workspace is a negative detection. -/
theorem Detect_read_failures_counterexample :
    Detect (fakeEnv []) fakeBuildpackYMLParser
        (fakeConfigParser scenarioAConfig (some GoError.errNotExist))
        (fakeProjectParser "" "" false false) workspaceContext
      = ({ Plan := { Requires := scenarioAPlan } }, none)
    ∧ Detect (fakeEnv []) fakeBuildpackYMLParser (fakeConfigParser {} none)
        (fakeProjectParser "" "" false false) workspaceContext
      = ({}, some (GoError.fail "no *.runtimeconfig.json or project file found")) := by
  constructor <;> decide

/-- C13 (amended): in a run of `Detect` that gets as far as the parsers (the project path is
resolved and `BP_LIVE_RELOAD_ENABLED` is unset or a valid boolean): if `configParser.Parse` fails
with an error that is not `os.ErrNotExist`, `Detect` returns exactly that error, unwrapped, and
no plan; if it fails with a not-exist error, `Detect` does not fail on that account and goes on
exactly as if `Parse` had returned the same `RuntimeConfig` without an error (the empty one when
`Parse` returns the zero value beside its error); and every error returned by `FindProjectFile`,
`ParseVersion`, `ASPNetIsRequired` or `NodeIsRequired` is returned by `Detect` as it is, with no
plan. -/
theorem Detect_read_failures (env : Env) (buildpackYMLParser : BuildpackConfigParser)
    (configParser : ConfigParser) (projectParser : ProjectParser) (context : DetectContext)
    (hpath : (detectProjectPath env buildpackYMLParser context).2 = none)
    (hreload : ∀ v, env "BP_LIVE_RELOAD_ENABLED" = some v → (ParseBool v).2 = none) :
    (∀ e, (detectedConfigResult env buildpackYMLParser configParser context).2 = some e →
        unwrapsToNotExist e = false →
        Detect env buildpackYMLParser configParser projectParser context = ({}, some e))
    ∧ (∀ e, (detectedConfigResult env buildpackYMLParser configParser context).2 = some e →
        unwrapsToNotExist e = true →
        Detect env buildpackYMLParser configParser projectParser context
          = Detect env buildpackYMLParser
              { Parse := fun _ =>
                  (detectedConfig env buildpackYMLParser configParser context, none) }
              projectParser context)
    ∧ ((detectedConfigResult env buildpackYMLParser configParser context).2 = none
          ∨ errorsIsNotExist
              (detectedConfigResult env buildpackYMLParser configParser context).2 = true →
        (∀ e, (detectedProjectFileResult env buildpackYMLParser projectParser context).2
              = some e →
            Detect env buildpackYMLParser configParser projectParser context = ({}, some e))
        ∧ ((detectedProjectFileResult env buildpackYMLParser projectParser context).2 = none →
            detectedProjectFile env buildpackYMLParser projectParser context ≠ "" →
            (∀ e, (projectParser.ParseVersion
                    (detectedProjectFile env buildpackYMLParser projectParser context)).2
                  = some e →
                Detect env buildpackYMLParser configParser projectParser context = ({}, some e))
            ∧ ((projectParser.ParseVersion
                  (detectedProjectFile env buildpackYMLParser projectParser context)).2 = none →
                (∀ e, (projectParser.ASPNetIsRequired
                        (detectedProjectFile env buildpackYMLParser projectParser context)).2
                      = some e →
                    Detect env buildpackYMLParser configParser projectParser context
                      = ({}, some e))
                ∧ ((projectParser.ASPNetIsRequired
                      (detectedProjectFile env buildpackYMLParser projectParser context)).2
                      = none →
                    ∀ e, (projectParser.NodeIsRequired
                          (detectedProjectFile env buildpackYMLParser projectParser context)).2
                        = some e →
                      Detect env buildpackYMLParser configParser projectParser context
                        = ({}, some e))))) := by
  have hD := Detect_after_reload env buildpackYMLParser configParser projectParser context
    hpath hreload
  refine ⟨?_, ?_, ?_⟩
  · intro e he hne
    rw [hD, he]
    simp [errorsIsNotExist, hne]
  · intro e he hne
    rw [hD, Detect_after_reload env buildpackYMLParser _ projectParser context hpath hreload]
    rw [he]
    simp [errorsIsNotExist, hne, detectedConfig, detectedConfigResult]
  · intro hparse
    have hc : ¬ ((detectedConfigResult env buildpackYMLParser configParser context).2 ≠ none
        ∧ errorsIsNotExist
            (detectedConfigResult env buildpackYMLParser configParser context).2 = false) := by
      rintro ⟨hne, hf⟩
      rcases hparse with hp | hp
      · exact hne hp
      · rw [hp] at hf
        cases hf
    rw [if_neg hc] at hD
    unfold detectedProjectFile
    rcases h4 : detectedProjectFileResult env buildpackYMLParser projectParser context
      with ⟨projectFile, ferr⟩
    rw [h4] at hD
    simp only
    refine ⟨?_, ?_⟩
    · intro e he
      subst he
      rw [hD]
    · intro hnone hpf
      subst hnone
      simp only at hD
      have hguard : ¬ ((detectedConfig env buildpackYMLParser configParser context).Path = ""
          ∧ projectFile = "") := fun hg => hpf hg.2
      rw [if_neg hguard, if_pos hpf] at hD
      unfold detectProjectFile at hD
      rcases h5 : projectParser.ParseVersion projectFile with ⟨version, verr⟩
      rw [h5] at hD
      simp only
      refine ⟨?_, ?_⟩
      · intro e he
        subst he
        rw [hD]
      · intro hv
        subst hv
        simp only at hD
        rcases h6 : projectParser.ASPNetIsRequired projectFile with ⟨aspNet, aerr⟩
        rw [h6] at hD
        simp only
        refine ⟨?_, ?_⟩
        · intro e he
          subst he
          rw [hD]
        · intro ha e he
          subst ha
          simp only at hD
          rcases h7 : projectParser.NodeIsRequired projectFile with ⟨node, nerr⟩
          rw [h7] at hD he
          simp only at he
          subst he
          rw [hD]

/-- A workspace with two runtime config files: the parser's error, which is not a not-exist
error, is the error of `Detect`. -/
theorem Detect_read_failures_witness :
    Detect (fakeEnv []) fakeBuildpackYMLParser
        (fakeConfigParser {}
          (some (GoError.errorString "multiple *.runtimeconfig.json files present")))
        (fakeProjectParser "/workspace/MyApp.csproj" "6.0.0" false false) workspaceContext
      = ({}, some (GoError.errorString "multiple *.runtimeconfig.json files present")) :=
  (Detect_read_failures (fakeEnv []) fakeBuildpackYMLParser
    (fakeConfigParser {}
      (some (GoError.errorString "multiple *.runtimeconfig.json files present")))
    (fakeProjectParser "/workspace/MyApp.csproj" "6.0.0" false false) workspaceContext
    (by decide) (by intro v hv; cases hv)).1
    (GoError.errorString "multiple *.runtimeconfig.json files present") (by decide) (by decide)

/-! ## The stages of `Build` -/

theorem buildCommand_ok (system : System) (context : BuildContext) (runtimeConfig : RuntimeConfig)
    (command : String) (args : List String)
    (h : buildCommand system context runtimeConfig = (command, args, none)) :
    (runtimeConfig.Executable = true
        ∧ command = filepathJoin [context.WorkingDir, runtimeConfig.AppName] ∧ args = [])
    ∨ (runtimeConfig.Executable = false
        ∧ system.Stat (filepathJoin [context.WorkingDir, runtimeConfig.AppName ++ ".dll"]) = none
        ∧ command = "dotnet"
        ∧ args = [filepathJoin [context.WorkingDir, runtimeConfig.AppName] ++ ".dll"]) := by
  unfold buildCommand at h
  cases hx : runtimeConfig.Executable with
  | true =>
    simp only [hx, Bool.not_true, Bool.false_eq_true, if_false, Prod.mk.injEq, and_true] at h
    exact Or.inl ⟨rfl, h.1.symm, h.2.symm⟩
  | false =>
    simp only [hx, Bool.not_false, if_true] at h
    cases hs : system.Stat (filepathJoin [context.WorkingDir, runtimeConfig.AppName ++ ".dll"])
      with
    | none =>
      simp only [hs, List.nil_append, Prod.mk.injEq, and_true] at h
      exact Or.inr ⟨rfl, rfl, h.1.symm, h.2.symm⟩
    | some e =>
      simp only [hs] at h
      split at h <;> simp at h

theorem buildProcesses_ok (config : Configuration) (system : System) (context : BuildContext)
    (runtimeConfig : RuntimeConfig) (command : String) (args : List String)
    (processes : List Process)
    (h : buildProcesses config system context runtimeConfig command args = (processes, none)) :
    (config.LiveReloadEnabled = false
        ∧ processes = [{ TypeName := runtimeConfig.AppName, Command := command, Args := args,
                         Default := true, Direct := true }])
    ∨ (config.LiveReloadEnabled = true
        ∧ buildWalk system context (system.Walk context.WorkingDir) = none
        ∧ processes =
            [{ TypeName := "reload-" ++ runtimeConfig.AppName,
               Command := "watchexec",
               Args := ["--restart", "--watch", context.WorkingDir, "--shell", "none", "--",
                        command] ++ args,
               Default := true, Direct := true },
             { TypeName := runtimeConfig.AppName, Command := command, Args := args,
               Default := false, Direct := true }]) := by
  unfold buildProcesses at h
  cases hl : config.LiveReloadEnabled with
  | false =>
    simp only [hl, Bool.false_eq_true, if_false, Prod.mk.injEq, and_true] at h
    exact Or.inl ⟨rfl, h.symm⟩
  | true =>
    simp only [hl, if_true] at h
    cases hw : buildWalk system context (system.Walk context.WorkingDir) with
    | none =>
      simp only [hw, Prod.mk.injEq, and_true] at h
      exact Or.inr ⟨rfl, rfl, h.symm⟩
    | some e => simp [hw] at h

theorem buildPortChooserLayer_ok (config : Configuration) (context : BuildContext)
    (result : Layer) (h : buildPortChooserLayer config context = (result, none)) :
    ∃ layer, context.Layers.Get "port-chooser" = (layer, none)
      ∧ result = { layer with
          Launch := true
          ExecD := [filepathJoin [context.CNBPath, "bin", "port-chooser"]]
          LaunchEnv := if config.DebugEnabled = true then
              layer.LaunchEnv.Default "ASPNETCORE_ENVIRONMENT" "Development"
            else layer.LaunchEnv } := by
  unfold buildPortChooserLayer at h
  rcases hg : context.Layers.Get "port-chooser" with ⟨layer, _ | e⟩
  · refine ⟨layer, rfl, ?_⟩
    simp only [hg] at h
    cases hd : config.DebugEnabled with
    | true =>
      simp only [hd, if_true, Prod.mk.injEq, and_true] at h
      rw [← h]
      simp
    | false =>
      simp only [hd, Bool.false_eq_true, if_false, Prod.mk.injEq, and_true] at h
      rw [← h]
      simp
  · simp [hg] at h

/-- What a successful run of `Build` went through. -/
theorem Build_ok (config : Configuration) (configParser : ConfigParser)
    (sbomGenerator : SBOMGenerator) (system : System) (context : BuildContext)
    (res : BuildResult)
    (h : Build config configParser sbomGenerator system context = (res, none)) :
    ∃ sbomContent sbomFormatter command args processes portChooserLayer,
      system.Marshal config = none
      ∧ (configParser.Parse (filepathJoin [context.WorkingDir, "*.runtimeconfig.json"])).2 = none
      ∧ sbomGenerator.Generate context.WorkingDir = (sbomContent, none)
      ∧ sbomContent.InFormats context.BuildpackInfo.SBOMFormats = (sbomFormatter, none)
      ∧ buildCommand system context (builtConfig configParser context) = (command, args, none)
      ∧ buildProcesses config system context (builtConfig configParser context) command args
          = (processes, none)
      ∧ buildPortChooserLayer config context = (portChooserLayer, none)
      ∧ res = { Layers := [portChooserLayer],
                Launch := { Processes := processes, SBOM := some sbomFormatter } } := by
  unfold Build at h
  unfold builtConfig
  cases h1 : system.Marshal config with
  | some e => simp [h1] at h
  | none =>
    simp only [h1] at h
    rcases h2 : configParser.Parse (filepathJoin [context.WorkingDir, "*.runtimeconfig.json"])
      with ⟨runtimeConfig, _ | e⟩
    · simp only [h2] at h ⊢
      rcases h3 : sbomGenerator.Generate context.WorkingDir with ⟨sbomContent, _ | e⟩
      · simp only [h3] at h
        rcases h4 : sbomContent.InFormats context.BuildpackInfo.SBOMFormats
          with ⟨sbomFormatter, _ | e⟩
        · simp only [h4] at h
          rcases h5 : buildCommand system context runtimeConfig with ⟨command, args, _ | e⟩
          · simp only [h5] at h
            rcases h6 : buildProcesses config system context runtimeConfig command args
              with ⟨processes, _ | e⟩
            · simp only [h6] at h
              rcases h7 : buildPortChooserLayer config context with ⟨portChooserLayer, _ | e⟩
              · simp only [h7, Prod.mk.injEq, and_true] at h
                exact ⟨sbomContent, sbomFormatter, command, args, processes, portChooserLayer,
                  trivial, trivial, rfl, h4, rfl, h6, rfl, h.symm⟩
              · simp [h7] at h
            · simp [h6] at h
          · simp [h5] at h
        · simp [h4] at h
      · simp [h3] at h
    · simp [h2] at h

theorem Environment_lookup_set (e : Environment) (key value : String) :
    (e.set key value).lookup key = some value := by
  unfold Environment.set
  split
  · rename_i hany
    induction e with
    | nil => simp at hany
    | cons entry rest ih =>
      by_cases hk : entry.1 = key
      · simp only [List.map_cons, if_pos hk, List.lookup_cons, beq_self_eq_true]
      · have hrest : rest.any (fun entry => decide (entry.1 = key)) = true := by
          simpa [hk] using hany
        have hne : (key == entry.1) = false := by
          simpa using fun h => hk h.symm
        simp only [List.map_cons, hk, if_false]
        rw [show entry = (entry.1, entry.2) from rfl, List.lookup_cons, hne]
        exact ih hrest
  · rename_i hany
    induction e with
    | nil => simp [List.lookup]
    | cons entry rest ih =>
      have hk : entry.1 ≠ key := by
        intro hk
        exact hany (by simp [hk])
      have hrest : ¬ rest.any (fun entry => decide (entry.1 = key)) = true := by
        intro hr
        exact hany (by simp only [List.any_cons, hr, Bool.or_true])
      have hne : (key == entry.1) = false := by
        simpa using fun h => hk h.symm
      rw [List.cons_append, show entry = (entry.1, entry.2) from rfl, List.lookup_cons, hne]
      exact ih hrest

theorem buildCommand_executable (system : System) (context : BuildContext)
    (runtimeConfig : RuntimeConfig) (hx : runtimeConfig.Executable = true) :
    buildCommand system context runtimeConfig
      = (filepathJoin [context.WorkingDir, runtimeConfig.AppName], [], none) := by
  unfold buildCommand
  simp [hx]

theorem buildWalk_stat (system : System) (context : BuildContext)
    (stat : String → Option GoError) (entries : List WalkEntry) :
    buildWalk { system with Stat := stat } context entries = buildWalk system context entries := by
  induction entries with
  | nil => rfl
  | cons entry rest ih =>
    unfold buildWalk
    rw [ih]

theorem buildProcesses_stat (config : Configuration) (system : System) (context : BuildContext)
    (stat : String → Option GoError) (runtimeConfig : RuntimeConfig) (command : String)
    (args : List String) :
    buildProcesses config { system with Stat := stat } context runtimeConfig command args
      = buildProcesses config system context runtimeConfig command args := by
  unfold buildProcesses
  rw [buildWalk_stat]

/-! ## The launch processes and the layer of `Build` -/

/-- C14: with live reload disabled, every successful `Build` returns exactly one launch
process: its type is the app name, it is the default and direct; for an executable app the
command is `filepath.Join(WorkingDir, AppName)` with no arguments, otherwise the command is
`dotnet` with the single argument `filepath.Join(WorkingDir, AppName)` followed by `.dll`. -/
theorem Build_single_process (config : Configuration) (configParser : ConfigParser)
    (sbomGenerator : SBOMGenerator) (system : System) (context : BuildContext)
    (res : BuildResult) (hreload : config.LiveReloadEnabled = false)
    (h : Build config configParser sbomGenerator system context = (res, none)) :
    res.Launch.Processes =
      [{ TypeName := (builtConfig configParser context).AppName,
         Command :=
           if (builtConfig configParser context).Executable = true then
             filepathJoin [context.WorkingDir, (builtConfig configParser context).AppName]
           else "dotnet",
         Args :=
           if (builtConfig configParser context).Executable = true then []
           else [filepathJoin [context.WorkingDir, (builtConfig configParser context).AppName]
                   ++ ".dll"],
         Default := true,
         Direct := true }] := by
  obtain ⟨_, _, command, args, processes, _, _, _, _, _, hc, hp, _, hres⟩ :=
    Build_ok config configParser sbomGenerator system context res h
  subst hres
  rcases buildProcesses_ok _ _ _ _ _ _ _ hp with ⟨_, hproc⟩ | ⟨hon, _⟩
  · subst hproc
    rcases buildCommand_ok _ _ _ _ _ hc with ⟨hx, hcmd, hargs⟩ | ⟨hx, _, hcmd, hargs⟩
    · subst hcmd hargs
      simp [hx]
    · subst hcmd hargs
      simp [hx]
  · rw [hreload] at hon
    cases hon

/-- The app `MyApp` in `/workspace`: as a framework-dependent deployment the process is
`dotnet /workspace/MyApp.dll`, as a framework-dependent executable it is `/workspace/MyApp`. -/
theorem Build_single_process_witness :
    (Build {} (fakeConfigParser scenarioAConfig none) fakeSBOMGenerator
        (fakeSystem ["/workspace/MyApp.dll"] []) workspaceBuildContext).1.Launch.Processes
      = [{ TypeName := "MyApp", Command := "dotnet", Args := ["/workspace/MyApp.dll"],
           Default := true, Direct := true }]
    ∧ (Build {} (fakeConfigParser scenarioBConfig none) fakeSBOMGenerator
        (fakeSystem [] []) workspaceBuildContext).1.Launch.Processes
      = [{ TypeName := "MyApp", Command := "/workspace/MyApp", Args := [],
           Default := true, Direct := true }] :=
  ⟨Build_single_process {} (fakeConfigParser scenarioAConfig none) fakeSBOMGenerator
      (fakeSystem ["/workspace/MyApp.dll"] []) workspaceBuildContext _ rfl
      (show _ = ((Build {} (fakeConfigParser scenarioAConfig none) fakeSBOMGenerator
        (fakeSystem ["/workspace/MyApp.dll"] []) workspaceBuildContext).1, none) by decide),
    by decide⟩

/-- C16: with live reload enabled, every successful `Build` returns exactly two launch
processes in this order: the default, direct process of type `reload-` followed by the app
name, with the command `watchexec` and the arguments `--restart --watch WorkingDir --shell none
-- command` followed by `args`; then the direct process that is not the default, of type the
app name, with `command` and `args`. Here `command` and `args` are those of lines 79-92, and
whenever `Build` succeeds on the same input with live reload disabled they are the command and
the arguments of its single process. -/
theorem Build_live_reload (config : Configuration) (configParser : ConfigParser)
    (sbomGenerator : SBOMGenerator) (system : System) (context : BuildContext)
    (res : BuildResult) (hreload : config.LiveReloadEnabled = true)
    (h : Build config configParser sbomGenerator system context = (res, none)) :
    ∃ command args,
      buildCommand system context (builtConfig configParser context) = (command, args, none)
      ∧ res.Launch.Processes =
          [{ TypeName := "reload-" ++ (builtConfig configParser context).AppName,
             Command := "watchexec",
             Args := ["--restart", "--watch", context.WorkingDir, "--shell", "none", "--",
                      command] ++ args,
             Default := true,
             Direct := true },
           { TypeName := (builtConfig configParser context).AppName,
             Command := command,
             Args := args,
             Default := false,
             Direct := true }]
      ∧ ∀ resOff,
          Build { config with LiveReloadEnabled := false } configParser sbomGenerator system
              context = (resOff, none) →
          resOff.Launch.Processes =
            [{ TypeName := (builtConfig configParser context).AppName,
               Command := command,
               Args := args,
               Default := true,
               Direct := true }] := by
  obtain ⟨_, _, command, args, processes, _, _, _, _, _, hc, hp, _, hres⟩ :=
    Build_ok config configParser sbomGenerator system context res h
  subst hres
  refine ⟨command, args, hc, ?_, ?_⟩
  · rcases buildProcesses_ok _ _ _ _ _ _ _ hp with ⟨hoff, _⟩ | ⟨_, _, hproc⟩
    · rw [hreload] at hoff
      cases hoff
    · exact hproc
  · intro resOff hOff
    obtain ⟨_, _, command', args', processes', _, _, _, _, _, hc', hp', _, hres'⟩ :=
      Build_ok _ configParser sbomGenerator system context resOff hOff
    subst hres'
    rw [hc] at hc'
    simp only [Prod.mk.injEq, and_true] at hc'
    obtain ⟨hcmd, hargs⟩ := hc'
    subst hcmd hargs
    rcases buildProcesses_ok _ _ _ _ _ _ _ hp' with ⟨_, hproc⟩ | ⟨hon, _⟩
    · exact hproc
    · simp at hon

/-- Scenario B: live reload enabled, the app `MyApp` executable. The processes are
`reload-MyApp`, which wraps `/workspace/MyApp` in `watchexec`, and `MyApp`. -/
theorem Build_live_reload_witness :
    (Build { LiveReloadEnabled := true } (fakeConfigParser scenarioBConfig none)
        fakeSBOMGenerator
        (fakeSystem [] [{ path := "/workspace", mode := 0o755 },
                        { path := "/workspace/MyApp", mode := 0o755 }])
        workspaceBuildContext).1.Launch.Processes
      = [{ TypeName := "reload-MyApp", Command := "watchexec",
           Args := ["--restart", "--watch", "/workspace", "--shell", "none", "--",
                    "/workspace/MyApp"],
           Default := true, Direct := true },
         { TypeName := "MyApp", Command := "/workspace/MyApp", Args := [], Default := false,
           Direct := true }]
    ∧ ∃ command args,
        buildCommand
            (fakeSystem [] [{ path := "/workspace", mode := 0o755 },
                            { path := "/workspace/MyApp", mode := 0o755 }])
            workspaceBuildContext scenarioBConfig = (command, args, none) :=
  ⟨by decide,
    (Build_live_reload { LiveReloadEnabled := true } (fakeConfigParser scenarioBConfig none)
      fakeSBOMGenerator
      (fakeSystem [] [{ path := "/workspace", mode := 0o755 },
                      { path := "/workspace/MyApp", mode := 0o755 }])
      workspaceBuildContext _ rfl
      (show _ = ((Build { LiveReloadEnabled := true } (fakeConfigParser scenarioBConfig none)
        fakeSBOMGenerator
        (fakeSystem [] [{ path := "/workspace", mode := 0o755 },
                        { path := "/workspace/MyApp", mode := 0o755 }])
        workspaceBuildContext).1, none) by decide)).elim
      fun command hc => hc.elim fun args hargs => ⟨command, args, hargs.1⟩⟩

/-- C17 does not hold of build.go: the integration tests expect the process types `web` and
`no-reload`, but `Build` names the processes after the app. For the app `MyApp` of the test
data the single process has type `MyApp`, and with live reload the two processes have the types
`reload-MyApp` and `MyApp`; none of them is `web` or `no-reload`. -/
theorem Build_process_types_MyApp :
    (Build {} (fakeConfigParser scenarioBConfig none) fakeSBOMGenerator (fakeSystem [] [])
        workspaceBuildContext).1.Launch.Processes.map (fun process => process.TypeName)
      = ["MyApp"]
    ∧ (Build {} (fakeConfigParser scenarioAConfig none) fakeSBOMGenerator
        (fakeSystem ["/workspace/MyApp.dll"] [])
        workspaceBuildContext).1.Launch.Processes.map (fun process => process.TypeName)
      = ["MyApp"]
    ∧ (Build { LiveReloadEnabled := true } (fakeConfigParser scenarioBConfig none)
        fakeSBOMGenerator (fakeSystem [] [])
        workspaceBuildContext).1.Launch.Processes.map (fun process => process.TypeName)
      = ["reload-MyApp", "MyApp"] := by
  decide

/-- C18: every successful `Build` returns exactly one layer, the layer that
`context.Layers.Get("port-chooser")` handed out, with `Launch` set to true and `ExecD` set to
`filepath.Join(CNBPath, "bin", "port-chooser")`, whatever the executable and live-reload
branches; when `config.DebugEnabled` is true its launch environment has the default
`ASPNETCORE_ENVIRONMENT` = `Development` set, and when it is false the launch environment is
the one of the layer handed out; the other environments are never touched. -/
theorem Build_port_chooser_layer (config : Configuration) (configParser : ConfigParser)
    (sbomGenerator : SBOMGenerator) (system : System) (context : BuildContext)
    (res : BuildResult)
    (h : Build config configParser sbomGenerator system context = (res, none)) :
    ∃ layer result,
      context.Layers.Get "port-chooser" = (layer, none)
      ∧ res.Layers = [result]
      ∧ result.Name = layer.Name ∧ result.Path = layer.Path
      ∧ result.Launch = true
      ∧ result.ExecD = [filepathJoin [context.CNBPath, "bin", "port-chooser"]]
      ∧ result.Build = layer.Build ∧ result.Cache = layer.Cache
      ∧ result.SharedEnv = layer.SharedEnv ∧ result.BuildEnv = layer.BuildEnv
      ∧ result.ProcessLaunchEnv = layer.ProcessLaunchEnv
      ∧ (config.DebugEnabled = true →
          result.LaunchEnv = layer.LaunchEnv.Default "ASPNETCORE_ENVIRONMENT" "Development"
          ∧ result.LaunchEnv.lookup "ASPNETCORE_ENVIRONMENT.default" = some "Development")
      ∧ (config.DebugEnabled = false → result.LaunchEnv = layer.LaunchEnv) := by
  obtain ⟨_, _, _, _, _, portChooserLayer, _, _, _, _, _, _, hl, hres⟩ :=
    Build_ok config configParser sbomGenerator system context res h
  obtain ⟨layer, hget, hresult⟩ := buildPortChooserLayer_ok config context portChooserLayer hl
  subst hres hresult
  refine ⟨layer, _, hget, rfl, rfl, rfl, rfl, rfl, rfl, rfl, rfl, rfl, rfl, ?_, ?_⟩
  · intro hd
    simp only [hd, if_true]
    exact ⟨trivial, Environment_lookup_set _ _ _⟩
  · intro hd
    simp [hd]

/-- The app `MyApp` with debugging enabled: the layer `port-chooser` is a launch layer with the
helper `/cnb/buildpack/bin/port-chooser` and the default `ASPNETCORE_ENVIRONMENT`. -/
theorem Build_port_chooser_layer_witness :
    (Build { DebugEnabled := true } (fakeConfigParser scenarioBConfig none) fakeSBOMGenerator
        (fakeSystem [] []) workspaceBuildContext).1.Layers
      = [{ Path := "/layers/port-chooser", Name := "port-chooser", Launch := true,
           ExecD := ["/cnb/buildpack/bin/port-chooser"],
           LaunchEnv := [("ASPNETCORE_ENVIRONMENT.default", "Development")] }]
    ∧ ∃ layer result,
        workspaceBuildContext.Layers.Get "port-chooser" = (layer, none)
        ∧ (Build { DebugEnabled := true } (fakeConfigParser scenarioBConfig none)
            fakeSBOMGenerator (fakeSystem [] []) workspaceBuildContext).1.Layers = [result]
        ∧ result.Launch = true :=
  ⟨by decide,
    (Build_port_chooser_layer { DebugEnabled := true } (fakeConfigParser scenarioBConfig none)
      fakeSBOMGenerator (fakeSystem [] []) workspaceBuildContext _
      (show _ = ((Build { DebugEnabled := true } (fakeConfigParser scenarioBConfig none)
        fakeSBOMGenerator (fakeSystem [] []) workspaceBuildContext).1, none) by decide)).elim
      fun layer hl => hl.elim fun result hr =>
        ⟨layer, result, hr.1, hr.2.1, hr.2.2.2.2.1⟩⟩

/-! ## `filepath.Clean` on a path with a last element

The part of a path before its last element is empty or ends with a slash; this is stated below
as: every last character of the part is a slash. -/

theorem takeWhile_append_of_exists {α : Type} (p : α → Bool) :
    ∀ (l x : List α), (∃ a ∈ l, p a = false) → (l ++ x).takeWhile p = l.takeWhile p
  | [], _, h => by simp at h
  | c :: l, x, h => by
    by_cases hc : p c = true
    · have hl : ∃ a ∈ l, p a = false := by
        obtain ⟨a, ha, hpa⟩ := h
        rcases List.mem_cons.mp ha with rfl | ha
        · rw [hc] at hpa; cases hpa
        · exact ⟨a, ha, hpa⟩
      simp [List.takeWhile_cons, hc, takeWhile_append_of_exists p l x hl]
    · simp [List.takeWhile_cons, hc]

theorem dropWhile_append_of_exists {α : Type} (p : α → Bool) :
    ∀ (l x : List α), (∃ a ∈ l, p a = false) → (l ++ x).dropWhile p = l.dropWhile p ++ x
  | [], _, h => by simp at h
  | c :: l, x, h => by
    by_cases hc : p c = true
    · have hl : ∃ a ∈ l, p a = false := by
        obtain ⟨a, ha, hpa⟩ := h
        rcases List.mem_cons.mp ha with rfl | ha
        · rw [hc] at hpa; cases hpa
        · exact ⟨a, ha, hpa⟩
      simp [List.dropWhile_cons, hc, dropWhile_append_of_exists p l x hl]
    · simp [List.dropWhile_cons, hc]

theorem endsSlash_tail (c : Char) (p : List Char)
    (hE : ∀ d, (c :: p).getLast? = some d → d = '/') (hp : p ≠ []) :
    ∀ d, p.getLast? = some d → d = '/' := by
  intro d hd
  apply hE
  cases p with
  | nil => exact absurd rfl hp
  | cons a q => rw [List.getLast?_cons_cons]; exact hd

theorem endsSlash_ne_nil (c : Char) (p : List Char)
    (hE : ∀ d, (c :: p).getLast? = some d → d = '/') (hc : c ≠ '/') : p ≠ [] := by
  intro hp
  subst hp
  exact hc (hE c rfl)

theorem endsSlash_mem (l : List Char) (hl : l ≠ [])
    (hE : ∀ d, l.getLast? = some d → d = '/') : '/' ∈ l := by
  have h := List.getLast?_eq_getLast l hl
  have h2 := hE _ h
  rw [← h2]
  exact List.getLast_mem hl

theorem endsSlash_of_cons (c : Char) (p : List Char)
    (hE : ∀ d, (c :: p).getLast? = some d → d = '/') :
    ∀ d, p.getLast? = some d → d = '/' := by
  cases p with
  | nil => intro d hd; simp at hd
  | cons a q => exact endsSlash_tail c (a :: q) hE (by simp)

theorem endsSlash_dropWhile (f : Char → Bool) (p : List Char)
    (hE : ∀ d, p.getLast? = some d → d = '/') :
    ∀ d, (p.dropWhile f).getLast? = some d → d = '/' := by
  intro d hd
  apply hE
  have h := List.takeWhile_append_dropWhile f p
  rw [← h, List.getLast?_append, hd]
  rfl

theorem cleanLoop_nil (rooted : Bool) (fuel : Nat) (out : List Char) (dd : Nat) :
    cleanLoop rooted fuel [] out dd = out := by
  cases fuel <;> rfl

theorem cleanLoop_element (rooted : Bool) (elem : List Char) (he : elem ≠ [])
    (hs : '/' ∉ elem) (h1 : elem ≠ ['.']) (h2 : elem ≠ ['.', '.'])
    (fuel : Nat) (hf : elem.length ≤ fuel) (out : List Char) (dd : Nat) :
    cleanLoop rooted fuel elem out dd
      = (if ((rooted && out.length != 1) || (!rooted && out.length != 0)) = true
          then out ++ ['/'] else out) ++ elem := by
  match elem, fuel, he, hf with
  | [], _, he, _ => exact absurd rfl he
  | c :: rest, 0, _, hf => simp at hf
  | c :: rest, f + 1, _, _ =>
    have hc1 : c ≠ '/' := fun e => hs (e ▸ List.mem_cons_self _ _)
    have hrest : '/' ∉ rest := fun m => hs (List.mem_cons_of_mem _ m)
    have hc2 : ¬ (c = '.' ∧ (rest = [] ∨ rest.head? = some '/')) := by
      rintro ⟨hc, hr | hr⟩
      · exact h1 (by rw [hc, hr])
      · exact hrest (List.mem_of_mem_head? hr)
    have hc3 : ¬ (c = '.' ∧ rest.head? = some '.'
        ∧ (rest.tail = [] ∨ rest.tail.head? = some '/')) := by
      rintro ⟨hc, hd, ht | ht⟩
      · cases rest with
        | nil => simp at hd
        | cons a t =>
          simp only [List.head?_cons, Option.some.injEq] at hd
          simp only [List.tail_cons] at ht
          exact h2 (by rw [hc, hd, ht])
      · exact hrest (List.mem_of_mem_tail (List.mem_of_mem_head? ht))
    have htake : (c :: rest).takeWhile (fun x => decide (x ≠ '/')) = c :: rest := by
      rw [List.takeWhile_eq_self_iff]
      intro a ha
      have : a ≠ '/' := fun e => hs (e ▸ ha)
      simpa using this
    have hdrop : (c :: rest).dropWhile (fun x => decide (x ≠ '/')) = [] := by
      rw [List.dropWhile_eq_nil_iff]
      intro a ha
      have : a ≠ '/' := fun e => hs (e ▸ ha)
      simpa using this
    rw [cleanLoop]
    rw [if_neg hc1, if_neg hc2, if_neg hc3]
    simp only [htake, hdrop, cleanLoop_nil]

theorem head?_append_of_ne_nil (p x : List Char) (hp : p ≠ []) :
    (p ++ x).head? = p.head? := by
  cases p with
  | nil => exact absurd rfl hp
  | cons a q => rfl

theorem tail_append_of_ne_nil (p x : List Char) (hp : p ≠ []) :
    (p ++ x).tail = p.tail ++ x := by
  cases p with
  | nil => exact absurd rfl hp
  | cons a q => rfl

/-- The loop of `filepath.Clean` reads a part of the path that ends with a slash in the same
way whatever follows it. -/
theorem cleanLoop_append (rooted : Bool) :
    ∀ (n : Nat) (pre : List Char), pre.length ≤ n →
      (∀ d, pre.getLast? = some d → d = '/') →
      ∀ (out : List Char) (dd : Nat), ∃ (out' : List Char) (dd' k : Nat), k ≤ pre.length ∧
        ∀ (x : List Char) (fuel : Nat), (pre ++ x).length ≤ fuel →
          cleanLoop rooted fuel (pre ++ x) out dd = cleanLoop rooted (fuel - k) x out' dd' := by
  intro n
  induction n with
  | zero =>
    intro pre hlen _ out dd
    have hp : pre = [] := List.length_eq_zero.mp (Nat.le_zero.mp hlen)
    subst hp
    exact ⟨out, dd, 0, Nat.le_refl _, fun x fuel _ => rfl⟩
  | succ n ih =>
    intro pre hlen hE out dd
    cases pre with
    | nil => exact ⟨out, dd, 0, Nat.zero_le _, fun x fuel _ => rfl⟩
    | cons c p =>
      have hpl : p.length ≤ n := by simpa using hlen
      have hEp := endsSlash_of_cons c p hE
      by_cases hc : c = '/'
      · obtain ⟨out', dd', k, hk, hrec⟩ := ih p hpl hEp out dd
        refine ⟨out', dd', k + 1, by simp only [List.length_cons]; omega, ?_⟩
        intro x fuel hf
        cases fuel with
        | zero => simp at hf
        | succ f =>
          have hf' : (p ++ x).length ≤ f := by simpa using hf
          rw [List.cons_append, cleanLoop, if_pos hc, hrec x f hf']
          congr 1
          omega
      · have hpne : p ≠ [] := endsSlash_ne_nil c p hE hc
        have hslash : '/' ∈ p := endsSlash_mem p hpne hEp
        by_cases hb2 : c = '.' ∧ p.head? = some '/'
        · obtain ⟨out', dd', k, hk, hrec⟩ := ih p hpl hEp out dd
          refine ⟨out', dd', k + 1, by simp only [List.length_cons]; omega, ?_⟩
          intro x fuel hf
          cases fuel with
          | zero => simp at hf
          | succ f =>
            have hf' : (p ++ x).length ≤ f := by simpa using hf
            have hcond : c = '.' ∧ (p ++ x = [] ∨ (p ++ x).head? = some '/') :=
              ⟨hb2.1, Or.inr (by rw [head?_append_of_ne_nil p x hpne]; exact hb2.2)⟩
            rw [List.cons_append, cleanLoop, if_neg hc, if_pos hcond, hrec x f hf']
            congr 1
            omega
        · by_cases hb3 : c = '.' ∧ p.head? = some '.' ∧ p.tail.head? = some '/'
          · -- a `..` element
            have hq : p.tail ≠ [] := by
              intro hq
              rw [hq] at hb3
              simp at hb3
            have hEq : ∀ d, p.tail.getLast? = some d → d = '/' := by
              cases p with
              | nil => exact absurd rfl hpne
              | cons a q => exact endsSlash_of_cons a q hEp
            have hql : p.tail.length ≤ n := by
              rw [List.length_tail]; omega
            obtain ⟨out', dd', k, hk, hrec⟩ := ih p.tail hql hEq
              (if out.length > dd then
                out.take (cleanBacktrack out dd (out.length - 1))
               else if (!rooted) = true then
                (if out.length > 0 then out ++ ['/'] else out) ++ ['.', '.']
               else out)
              (if out.length > dd then dd
               else if (!rooted) = true then
                ((if out.length > 0 then out ++ ['/'] else out) ++ ['.', '.']).length
               else dd)
            refine ⟨out', dd', k + 1, by
              rw [List.length_tail] at hk; simp only [List.length_cons]; omega, ?_⟩
            intro x fuel hf
            cases fuel with
            | zero => simp at hf
            | succ f =>
              have hf' : (p.tail ++ x).length ≤ f := by
                simp only [List.cons_append, List.length_cons, List.length_append] at hf
                simp only [List.length_append, List.length_tail]
                omega
              have hcond2 : ¬ (c = '.' ∧ (p ++ x = [] ∨ (p ++ x).head? = some '/')) := by
                rintro ⟨_, h | h⟩
                · exact hpne (List.append_eq_nil.mp h).1
                · rw [head?_append_of_ne_nil p x hpne, hb3.2.1] at h
                  cases h
              have hcond3 : c = '.' ∧ (p ++ x).head? = some '.'
                  ∧ ((p ++ x).tail = [] ∨ (p ++ x).tail.head? = some '/') := by
                refine ⟨hb3.1, by rw [head?_append_of_ne_nil p x hpne]; exact hb3.2.1,
                  Or.inr ?_⟩
                rw [tail_append_of_ne_nil p x hpne, head?_append_of_ne_nil _ x hq]
                exact hb3.2.2
              rw [List.cons_append, cleanLoop, if_neg hc, if_neg hcond2, if_pos hcond3]
              have hfk : f + 1 - (k + 1) = f - k := by omega
              rw [hfk, tail_append_of_ne_nil p x hpne, ← hrec x f hf']
              by_cases h1 : out.length > dd
              · simp only [if_pos h1]
              · simp only [if_neg h1]
                by_cases h2 : (!rooted) = true
                · simp only [if_pos h2]
                · simp only [if_neg h2]
          · -- a real path element
            have hex : ∃ a ∈ c :: p, (fun x => decide (x ≠ '/')) a = false :=
              ⟨'/', List.mem_cons_of_mem _ hslash, by simp⟩
            have hdc : (c :: p).dropWhile (fun x => decide (x ≠ '/'))
                = p.dropWhile (fun x => decide (x ≠ '/')) := by
              rw [List.dropWhile_cons]
              simp [hc]
            have hdl : (p.dropWhile (fun x => decide (x ≠ '/'))).length ≤ n :=
              Nat.le_trans (List.dropWhile_sublist _).length_le hpl
            obtain ⟨out', dd', k, hk, hrec⟩ := ih (p.dropWhile (fun x => decide (x ≠ '/')))
              hdl (endsSlash_dropWhile _ p hEp)
              ((if ((rooted && out.length != 1) || (!rooted && out.length != 0)) = true
                  then out ++ ['/'] else out)
                ++ (c :: p).takeWhile (fun x => decide (x ≠ '/'))) dd
            refine ⟨out', dd', k + 1, by
              have := (List.dropWhile_sublist (fun x => decide (x ≠ '/')) (l := p)).length_le
              simp only [List.length_cons]; omega, ?_⟩
            intro x fuel hf
            cases fuel with
            | zero => simp at hf
            | succ f =>
              have hf' : (p.dropWhile (fun x => decide (x ≠ '/')) ++ x).length ≤ f := by
                have := (List.dropWhile_sublist (fun x => decide (x ≠ '/')) (l := p)).length_le
                simp only [List.cons_append, List.length_cons, List.length_append] at hf
                simp only [List.length_append]
                omega
              have hcond2 : ¬ (c = '.' ∧ (p ++ x = [] ∨ (p ++ x).head? = some '/')) := by
                rintro ⟨hc', h | h⟩
                · exact hpne (List.append_eq_nil.mp h).1
                · rw [head?_append_of_ne_nil p x hpne] at h
                  exact hb2 ⟨hc', h⟩
              have hcond3 : ¬ (c = '.' ∧ (p ++ x).head? = some '.'
                  ∧ ((p ++ x).tail = [] ∨ (p ++ x).tail.head? = some '/')) := by
                rintro ⟨hc', hh, ht⟩
                rw [head?_append_of_ne_nil p x hpne] at hh
                have hq : p.tail ≠ [] := by
                  cases p with
                  | nil => exact absurd rfl hpne
                  | cons a q =>
                    simp only [List.head?_cons, Option.some.injEq] at hh
                    subst hh
                    exact endsSlash_ne_nil '.' q hEp (by decide)
                rw [tail_append_of_ne_nil p x hpne] at ht
                rcases ht with ht | ht
                · exact hq (List.append_eq_nil.mp ht).1
                · rw [head?_append_of_ne_nil _ x hq] at ht
                  exact hb3 ⟨hc', hh, ht⟩
              rw [List.cons_append, cleanLoop, if_neg hc, if_neg hcond2, if_neg hcond3]
              have hfk : f + 1 - (k + 1) = f - k := by omega
              rw [hfk, ← hrec x f hf']
              have e1 : (c :: (p ++ x)).takeWhile (fun x => decide (x ≠ '/'))
                  = (c :: p).takeWhile (fun x => decide (x ≠ '/')) := by
                rw [← List.cons_append]
                exact takeWhile_append_of_exists _ _ _ hex
              have e2 : (c :: (p ++ x)).dropWhile (fun x => decide (x ≠ '/'))
                  = p.dropWhile (fun x => decide (x ≠ '/')) ++ x := by
                rw [← List.cons_append, dropWhile_append_of_exists _ _ _ hex, hdc]
              simp only [e1, e2]

theorem Clean_mk (l : List Char) (hl : l ≠ []) :
    Clean (String.mk l)
      = (if (cleanLoop (decide (l.head? = some '/')) l.length
              (if decide (l.head? = some '/') = true then l.tail else l)
              (if decide (l.head? = some '/') = true then ['/'] else [])
              (if decide (l.head? = some '/') = true then 1 else 0)).length = 0 then "."
          else String.mk (cleanLoop (decide (l.head? = some '/')) l.length
              (if decide (l.head? = some '/') = true then l.tail else l)
              (if decide (l.head? = some '/') = true then ['/'] else [])
              (if decide (l.head? = some '/') = true then 1 else 0))) := by
  have hpath : String.mk l ≠ "" := fun h => hl (congrArg String.data h)
  unfold Clean
  rw [if_neg hpath]

/-- After a part of the path that is empty or ends with a slash, `filepath.Clean` appends a last
element, which is not empty, `.` or `..`, as it is to what it made of that part. -/
theorem Clean_append_element (pre : List Char)
    (hE : ∀ d, pre.getLast? = some d → d = '/') :
    ∃ S : List Char, ∀ elem : List Char, elem ≠ [] → '/' ∉ elem → elem ≠ ['.'] →
      elem ≠ ['.', '.'] → Clean (String.mk (pre ++ elem)) = String.mk (S ++ elem) := by
  cases pre with
  | nil =>
    refine ⟨[], ?_⟩
    intro elem he hs h1 h2
    have hroot : decide (elem.head? = some '/') = false :=
      decide_eq_false (fun h => hs (List.mem_of_mem_head? h))
    rw [List.nil_append, Clean_mk elem he, hroot]
    simp only [Bool.false_eq_true, if_false]
    rw [cleanLoop_element false elem he hs h1 h2 _ (Nat.le_refl _)]
    have hne : ¬ (((if ((false && ([] : List Char).length != 1)
        || (!false && ([] : List Char).length != 0)) = true
        then [] ++ ['/'] else []) ++ elem).length = 0) := by
      simp only [List.length_append]
      have := List.length_pos.mpr he
      omega
    rw [if_neg hne]
    rfl
  | cons c p =>
    have hEp := endsSlash_of_cons c p hE
    by_cases hc : c = '/'
    · obtain ⟨out', dd', k, hk, hrec⟩ := cleanLoop_append true p.length p (Nat.le_refl _) hEp
        ['/'] 1
      refine ⟨(if ((true && out'.length != 1) || (!true && out'.length != 0)) = true
          then out' ++ ['/'] else out'), ?_⟩
      intro elem he hs h1 h2
      have hroot : decide ((c :: p ++ elem).head? = some '/') = true :=
        decide_eq_true (by rw [List.cons_append, List.head?_cons, hc])
      rw [Clean_mk _ (by simp), hroot]
      simp only [if_true, List.cons_append, List.tail_cons]
      rw [hrec elem _ (by simp only [List.length_cons]; omega)]
      rw [cleanLoop_element true elem he hs h1 h2 _
        (by simp only [List.length_cons, List.length_append]; omega)]
      have hne : ¬ (((if ((true && out'.length != 1) || (!true && out'.length != 0)) = true
          then out' ++ ['/'] else out') ++ elem).length = 0) := by
        simp only [List.length_append]
        have := List.length_pos.mpr he
        omega
      rw [if_neg hne]
    · obtain ⟨out', dd', k, hk, hrec⟩ := cleanLoop_append false (c :: p).length (c :: p)
        (Nat.le_refl _) hE [] 0
      refine ⟨(if ((false && out'.length != 1) || (!false && out'.length != 0)) = true
          then out' ++ ['/'] else out'), ?_⟩
      intro elem he hs h1 h2
      have hroot : decide ((c :: p ++ elem).head? = some '/') = false :=
        decide_eq_false (by
          rw [List.cons_append, List.head?_cons]
          exact fun h => hc (Option.some.inj h))
      rw [Clean_mk _ (by simp), hroot]
      simp only [Bool.false_eq_true, if_false]
      rw [hrec elem _ (Nat.le_refl _)]
      rw [cleanLoop_element false elem he hs h1 h2 _
        (by simp only [List.length_cons, List.length_append] at hk ⊢; omega)]
      have hne : ¬ (((if ((false && out'.length != 1) || (!false && out'.length != 0)) = true
          then out' ++ ['/'] else out') ++ elem).length = 0) := by
        simp only [List.length_append]
        have := List.length_pos.mpr he
        omega
      rw [if_neg hne]

/-- For an app name that is one ordinary path element (not empty, no slash, not `.` or `..`),
the path `filepath.Join(WorkingDir, AppName)` followed by `.dll` is the path
`filepath.Join(WorkingDir, AppName + ".dll")`. -/
theorem filepathJoin_dll (workingDir name : String) (hne : name ≠ "")
    (hslash : '/' ∉ name.data) (hdot : name ≠ ".") (hdotdot : name ≠ "..") :
    filepathJoin [workingDir, name] ++ ".dll" = filepathJoin [workingDir, name ++ ".dll"] := by
  have he : name.data ≠ [] := fun h => hne (String.ext h)
  have h1 : name.data ≠ ['.'] := fun h => hdot (String.ext h)
  have h2 : name.data ≠ ['.', '.'] := fun h => hdotdot (String.ext h)
  have hd : (name ++ ".dll").data = name.data ++ ['.', 'd', 'l', 'l'] := rfl
  have he' : (name ++ ".dll").data ≠ [] := by
    rw [hd]
    simp
  have hne' : name ++ ".dll" ≠ "" := fun h => he' (congrArg String.data h)
  have hs' : '/' ∉ (name ++ ".dll").data := by
    rw [hd, List.mem_append, not_or]
    exact ⟨hslash, by decide⟩
  have h1' : (name ++ ".dll").data ≠ ['.'] := by
    intro h
    have := congrArg List.length h
    rw [hd] at this
    simp at this
  have h2' : (name ++ ".dll").data ≠ ['.', '.'] := by
    intro h
    have := congrArg List.length h
    rw [hd] at this
    simp at this
  by_cases hw : workingDir = ""
  · subst hw
    obtain ⟨S, hS⟩ := Clean_append_element [] (by intro d hd; simp at hd)
    have e1 : filepathJoin ["", name] = Clean name := by
      simp [filepathJoin, hne, Join]
    have e2 : filepathJoin ["", name ++ ".dll"] = Clean (name ++ ".dll") := by
      simp [filepathJoin, hne', Join]
    have s1 : Clean name = String.mk (S ++ name.data) := hS name.data he hslash h1 h2
    have s2 : Clean (name ++ ".dll") = String.mk (S ++ (name ++ ".dll").data) :=
      hS (name ++ ".dll").data he' hs' h1' h2'
    rw [e1, e2, s1, s2]
    apply String.ext
    rw [hd]
    simp [String.data_append]
  · obtain ⟨S, hS⟩ := Clean_append_element (workingDir.data ++ ['/'])
      (by intro d hd; simpa using hd.symm)
    have e1 : filepathJoin [workingDir, name] = Clean (workingDir ++ "/" ++ name) := by
      simp [filepathJoin, hw, Join]
    have e2 : filepathJoin [workingDir, name ++ ".dll"]
        = Clean (workingDir ++ "/" ++ (name ++ ".dll")) := by
      simp [filepathJoin, hw, Join]
    have s1 : Clean (workingDir ++ "/" ++ name)
        = String.mk (S ++ name.data) := hS name.data he hslash h1 h2
    have s2 : Clean (workingDir ++ "/" ++ (name ++ ".dll"))
        = String.mk (S ++ (name ++ ".dll").data) := hS (name ++ ".dll").data he' hs' h1' h2'
    rw [e1, e2, s1, s2]
    apply String.ext
    rw [hd]
    simp [String.data_append]

/-- For an app whose name is one ordinary path element and that is not executable, the argument
that a successful `Build` passes to `dotnet` is the path it looked up with `os.Stat`. -/
theorem Build_dll_argument_ordinary_name (config : Configuration) (configParser : ConfigParser)
    (sbomGenerator : SBOMGenerator) (system : System) (context : BuildContext)
    (res : BuildResult)
    (h : Build config configParser sbomGenerator system context = (res, none))
    (hx : (builtConfig configParser context).Executable = false)
    (hne : (builtConfig configParser context).AppName ≠ "")
    (hslash : '/' ∉ (builtConfig configParser context).AppName.data)
    (hdot : (builtConfig configParser context).AppName ≠ ".")
    (hdotdot : (builtConfig configParser context).AppName ≠ "..") :
    ∃ command args,
      buildCommand system context (builtConfig configParser context) = (command, args, none)
      ∧ args = [filepathJoin
          [context.WorkingDir, (builtConfig configParser context).AppName ++ ".dll"]]
      ∧ system.Stat (filepathJoin
          [context.WorkingDir, (builtConfig configParser context).AppName ++ ".dll"]) = none := by
  obtain ⟨_, _, command, args, _, _, _, _, _, _, hc, _, _, _⟩ :=
    Build_ok config configParser sbomGenerator system context res h
  refine ⟨command, args, hc, ?_⟩
  rcases buildCommand_ok _ _ _ _ _ hc with ⟨hx', _, _⟩ | ⟨_, hstat, _, hargs⟩
  · rw [hx] at hx'
    cases hx'
  · exact ⟨by rw [hargs, filepathJoin_dll _ _ hne hslash hdot hdotdot], hstat⟩

/-- C20 does not hold of build.go for every app name. For the empty app name (the runtime config
file `/workspace/.runtimeconfig.json`) `Build` checks the file `/workspace/.dll`, which
`filepath.Join(WorkingDir, AppName + ".dll")` names, and with that file present it succeeds and
passes `dotnet` the argument `/workspace.dll`, which is `filepath.Join(WorkingDir, AppName)`
followed by `.dll`: the joined path is cleaned before the extension is added. -/
theorem Build_dll_argument_empty_name :
    filepathJoin [workspaceBuildContext.WorkingDir, emptyNameConfig.AppName ++ ".dll"]
      = "/workspace/.dll"
    ∧ filepathJoin [workspaceBuildContext.WorkingDir, emptyNameConfig.AppName] ++ ".dll"
      = "/workspace.dll"
    ∧ (Build {} (fakeConfigParser emptyNameConfig none) fakeSBOMGenerator
        (fakeSystem ["/workspace/.dll"] []) workspaceBuildContext).2 = none
    ∧ (Build {} (fakeConfigParser emptyNameConfig none) fakeSBOMGenerator
        (fakeSystem ["/workspace/.dll"] []) workspaceBuildContext).1.Launch.Processes
      = [{ TypeName := "", Command := "dotnet", Args := ["/workspace.dll"], Default := true,
           Direct := true }] := by
  decide

/-- C15: for an app that is not executable, in a run of `Build` that gets as far as the lookup
of the DLL (the configuration is marshalled, the runtime config is parsed, the bill of
materials is generated and formatted): if `os.Stat` of
`filepath.Join(WorkingDir, AppName + ".dll")` reports a not-exist error, `Build` fails with the
error whose message is "no entrypoint [AppName.dll] found: ", the message of the `os.Stat`
error and a blank, and which wraps that error; if `os.Stat` fails with any other error, `Build`
returns that error unchanged; in both cases the result is empty. For an executable app `Build`
never looks the DLL up: its outcome is the same whatever `os.Stat` reports, and every error it
returns is the error of one of the other steps. -/
theorem Build_entrypoint (config : Configuration) (configParser : ConfigParser)
    (sbomGenerator : SBOMGenerator) (system : System) (context : BuildContext) :
    (∀ runtimeConfig sbomContent sbomFormatter,
        system.Marshal config = none →
        configParser.Parse (filepathJoin [context.WorkingDir, "*.runtimeconfig.json"])
          = (runtimeConfig, none) →
        sbomGenerator.Generate context.WorkingDir = (sbomContent, none) →
        sbomContent.InFormats context.BuildpackInfo.SBOMFormats = (sbomFormatter, none) →
        runtimeConfig.Executable = false →
        (∀ e, system.Stat (filepathJoin [context.WorkingDir, runtimeConfig.AppName ++ ".dll"])
              = some e →
            unwrapsToNotExist e = true →
            Build config configParser sbomGenerator system context
              = ({}, some (GoError.wrapError
                  ("no entrypoint [" ++ runtimeConfig.AppName ++ ".dll] found: ") e " ")))
        ∧ (∀ e, system.Stat (filepathJoin [context.WorkingDir, runtimeConfig.AppName ++ ".dll"])
              = some e →
            unwrapsToNotExist e = false →
            Build config configParser sbomGenerator system context = ({}, some e)))
    ∧ ((builtConfig configParser context).Executable = true →
        (∀ stat, Build config configParser sbomGenerator { system with Stat := stat } context
            = Build config configParser sbomGenerator system context)
        ∧ ∀ err, (Build config configParser sbomGenerator system context).2 = some err →
            (∃ e, system.Marshal config = some e
                ∧ err = GoError.wrapError "parsing build configuration: " e "")
            ∨ (∃ e, (configParser.Parse
                      (filepathJoin [context.WorkingDir, "*.runtimeconfig.json"])).2 = some e
                ∧ err = GoError.wrapError "failed to find *.runtimeconfig.json: " e "")
            ∨ (sbomGenerator.Generate context.WorkingDir).2 = some err
            ∨ ((sbomGenerator.Generate context.WorkingDir).1.InFormats
                  context.BuildpackInfo.SBOMFormats).2 = some err
            ∨ buildWalk system context (system.Walk context.WorkingDir) = some err
            ∨ (context.Layers.Get "port-chooser").2 = some err) := by
  constructor
  · intro runtimeConfig sbomContent sbomFormatter hm hp hg hf hx
    constructor
    · intro e hs hne
      unfold Build
      simp only [hm, hp, hg, hf]
      unfold buildCommand
      simp [hx, hs, errorsIsNotExist, hne]
    · intro e hs hne
      unfold Build
      simp only [hm, hp, hg, hf]
      unfold buildCommand
      simp [hx, hs, errorsIsNotExist, hne]
  · intro hx
    unfold builtConfig at hx
    constructor
    · intro stat
      unfold Build
      cases h1 : system.Marshal config with
      | some e => rfl
      | none =>
        simp only [h1]
        rcases h2 : configParser.Parse
          (filepathJoin [context.WorkingDir, "*.runtimeconfig.json"]) with ⟨runtimeConfig, _ | e⟩
        · rw [h2] at hx
          simp only [buildCommand_executable _ context runtimeConfig hx, buildProcesses_stat]
        · rfl
    · intro err herr
      unfold Build at herr
      cases h1 : system.Marshal config with
      | some e =>
        simp only [h1, Option.some.injEq] at herr
        exact Or.inl ⟨e, rfl, herr.symm⟩
      | none =>
        simp only [h1] at herr
        rcases h2 : configParser.Parse
          (filepathJoin [context.WorkingDir, "*.runtimeconfig.json"]) with ⟨runtimeConfig, _ | e⟩
        · rw [h2] at hx
          simp only [h2] at herr
          rcases h3 : sbomGenerator.Generate context.WorkingDir with ⟨sbomContent, _ | e⟩
          · simp only [h3] at herr
            rcases h4 : sbomContent.InFormats context.BuildpackInfo.SBOMFormats
              with ⟨sbomFormatter, _ | e⟩
            · simp only [h4, buildCommand_executable _ context runtimeConfig hx] at herr
              unfold buildProcesses at herr
              cases hw : buildWalk system context (system.Walk context.WorkingDir) with
              | some e =>
                cases hl : config.LiveReloadEnabled with
                | true =>
                  simp only [hl, if_true, hw, Option.some.injEq] at herr
                  exact Or.inr (Or.inr (Or.inr (Or.inr (Or.inl (herr ▸ rfl)))))
                | false =>
                  simp only [hl, Bool.false_eq_true, if_false] at herr
                  unfold buildPortChooserLayer at herr
                  rcases h7 : context.Layers.Get "port-chooser" with ⟨layer, _ | e'⟩
                  · rw [h7] at herr
                    cases hd : config.DebugEnabled <;> simp [hd] at herr
                  · rw [h7] at herr
                    simp only [Option.some.injEq] at herr
                    exact Or.inr (Or.inr (Or.inr (Or.inr (Or.inr (herr ▸ rfl)))))
              | none =>
                have hproc : ∀ (processes : List Process),
                    (match (processes, (none : Option GoError)) with
                      | (_, some err) => (({} : BuildResult), some err)
                      | (processes, none) =>
                        match buildPortChooserLayer config context with
                        | (_, some err) => ({}, some err)
                        | (portChooserLayer, none) =>
                          ({ Layers := [portChooserLayer],
                             Launch := { Processes := processes,
                                         SBOM := some sbomFormatter } }, none)).2 = some err →
                    (context.Layers.Get "port-chooser").2 = some err := by
                  intro processes hpr
                  simp only at hpr
                  unfold buildPortChooserLayer at hpr
                  rcases h7 : context.Layers.Get "port-chooser" with ⟨layer, _ | e'⟩
                  · rw [h7] at hpr
                    cases hd : config.DebugEnabled <;> simp [hd] at hpr
                  · rw [h7] at hpr
                    simp only [Option.some.injEq] at hpr
                    exact hpr ▸ rfl
                cases hl : config.LiveReloadEnabled with
                | true =>
                  simp only [hl, if_true, hw] at herr
                  exact Or.inr (Or.inr (Or.inr (Or.inr (Or.inr (hproc _ herr)))))
                | false =>
                  simp only [hl, Bool.false_eq_true, if_false] at herr
                  exact Or.inr (Or.inr (Or.inr (Or.inr (Or.inr (hproc _ herr)))))
            · simp only [h4, Option.some.injEq] at herr
              exact Or.inr (Or.inr (Or.inr (Or.inl (herr ▸ rfl))))
          · simp only [h3, Option.some.injEq] at herr
            exact Or.inr (Or.inr (Or.inl (herr ▸ rfl)))
        · simp only [h2, Option.some.injEq] at herr
          exact Or.inr (Or.inl ⟨e, rfl, herr.symm⟩)

/-- The app `MyApp` is not executable and `/workspace/MyApp.dll` is missing: `Build` fails with
the error "no entrypoint [MyApp.dll] found" that wraps the not-exist error. -/
theorem Build_entrypoint_witness :
    Build {} (fakeConfigParser scenarioAConfig none) fakeSBOMGenerator (fakeSystem [] [])
        workspaceBuildContext
      = ({}, some (GoError.wrapError ("no entrypoint [" ++ "MyApp" ++ ".dll] found: ")
            GoError.errNotExist " ")) :=
  ((Build_entrypoint {} (fakeConfigParser scenarioAConfig none) fakeSBOMGenerator
      (fakeSystem [] []) workspaceBuildContext).1 scenarioAConfig _ _ rfl rfl rfl rfl rfl).1
    GoError.errNotExist (by decide) rfl

/-! ## The shape of the SDK version -/

theorem Count_le_length (sep : Char) : ∀ s : List Char, Count s sep ≤ s.length
  | [] => Nat.le_refl _
  | c :: cs => by
    have h := Count_le_length sep cs
    simp only [Count, List.length_cons]
    split <;> omega

theorem Count_of_not_mem (sep : Char) : ∀ s : List Char, sep ∉ s → Count s sep = 0
  | [], _ => rfl
  | c :: cs, h => by
    have hc : c ≠ sep := fun e => h (e ▸ List.mem_cons_self _ _)
    have hcs : sep ∉ cs := fun m => h (List.mem_cons_of_mem _ m)
    simp [Count, hc, Count_of_not_mem sep cs hcs]

theorem Count_append_cons (sep : Char) (t : List Char) :
    ∀ a : List Char, sep ∉ a → Count (a ++ sep :: t) sep = Count t sep + 1
  | [], _ => by simp [Count, Nat.add_comm]
  | c :: cs, h => by
    have hc : c ≠ sep := fun e => h (e ▸ List.mem_cons_self _ _)
    have hcs : sep ∉ cs := fun m => h (List.mem_cons_of_mem _ m)
    simp [Count, hc, Count_append_cons sep t cs hcs]

/-- The call `strings.Split(s, ".")`, which is `SplitN` with `n = -1`, cuts at every
separator. -/
theorem SplitN_all (s : String) (sep : Char) :
    SplitN s sep (-1) = (genSplitLoop sep (Count s.data sep) s.data).map String.mk := by
  have hlen : Count s.data sep ≤ s.utf8ByteSize :=
    Nat.le_trans (Count_le_length sep s.data) (length_le_utf8Len s.data)
  unfold SplitN
  have hcap : ¬ (Count s.data sep + 1 > s.utf8ByteSize + 1) := by omega
  simp [hcap]

/-- The pieces that `strings.SplitN(version, ".", 3)` cuts: one, two or three, the first two
without a dot. -/
theorem genSplitLoop_two_shape (s : List Char) :
    (genSplitLoop '.' 2 s = [s] ∧ '.' ∉ s)
    ∨ (∃ a b, genSplitLoop '.' 2 s = [a, b] ∧ '.' ∉ a ∧ '.' ∉ b)
    ∨ (∃ a b c, genSplitLoop '.' 2 s = [a, b, c] ∧ '.' ∉ a ∧ '.' ∉ b) := by
  by_cases hs : '.' ∈ s
  · obtain ⟨a, t, hat, ha⟩ := List.eq_append_cons_of_mem hs
    subst hat
    by_cases ht : '.' ∈ t
    · obtain ⟨b, r, hbr, hb⟩ := List.eq_append_cons_of_mem ht
      subst hbr
      refine Or.inr (Or.inr ⟨a, b, r, ?_, ha, hb⟩)
      rw [genSplitLoop_append_cons '.' 1 _ _ ha, genSplitLoop_append_cons '.' 0 _ _ hb]
      rfl
    · refine Or.inr (Or.inl ⟨a, t, ?_, ha, ht⟩)
      rw [genSplitLoop_append_cons '.' 1 _ _ ha, genSplitLoop_of_not_mem '.' 1 _ ht]
  · exact Or.inl ⟨genSplitLoop_of_not_mem '.' 2 s hs, hs⟩

/-- Every result of `getSDKVersion` is at most two pieces of the version, none of them `"*"` and
none with a dot in it, followed by `"*"`, joined with dots. -/
theorem getSDKVersion_shape (version : String) :
    ∃ parts : List String, parts.length ≤ 2
      ∧ (∀ p ∈ parts, '.' ∉ p.data ∧ p ≠ "*")
      ∧ getSDKVersion version = Join (parts ++ ["*"]) "." := by
  by_cases hv : version = ""
  · subst hv
    exact ⟨[], by simp, by simp, by decide⟩
  · rw [getSDKVersion_unfold version hv]
    rcases genSplitLoop_two_shape version.data with
      ⟨hs, ha⟩ | ⟨a, b, hs, ha, hb⟩ | ⟨a, b, c, hs, ha, hb⟩
    · rw [hs]
      by_cases hsa : String.mk version.data = "*"
      · exact ⟨[], by simp, by simp, by simp [getSDKVersionLoop, hsa]⟩
      · refine ⟨[String.mk version.data], by simp, ?_, by simp [getSDKVersionLoop, hsa]⟩
        intro p hp
        simp only [List.mem_singleton] at hp
        subst hp
        exact ⟨ha, hsa⟩
    · rw [hs]
      by_cases hsa : String.mk a = "*"
      · exact ⟨[], by simp, by simp, by simp [getSDKVersionLoop, hsa]⟩
      · by_cases hsb : String.mk b = "*"
        · refine ⟨[String.mk a], by simp, ?_, by simp [getSDKVersionLoop, hsa, hsb]⟩
          intro p hp
          simp only [List.mem_singleton] at hp
          subst hp
          exact ⟨ha, hsa⟩
        · refine ⟨[String.mk a, String.mk b], by simp, ?_,
            by simp [getSDKVersionLoop, hsa, hsb]⟩
          intro p hp
          simp only [List.mem_cons, List.mem_singleton, List.not_mem_nil, or_false] at hp
          rcases hp with hp | hp
          · subst hp; exact ⟨ha, hsa⟩
          · subst hp; exact ⟨hb, hsb⟩
    · rw [hs]
      by_cases hsa : String.mk a = "*"
      · exact ⟨[], by simp, by simp, by simp [getSDKVersionLoop, hsa]⟩
      · by_cases hsb : String.mk b = "*"
        · refine ⟨[String.mk a], by simp, ?_, by simp [getSDKVersionLoop, hsa, hsb]⟩
          intro p hp
          simp only [List.mem_singleton] at hp
          subst hp
          exact ⟨ha, hsa⟩
        · refine ⟨[String.mk a, String.mk b], by simp, ?_,
            by simp [getSDKVersionLoop, hsa, hsb]⟩
          intro p hp
          simp only [List.mem_cons, List.mem_singleton, List.not_mem_nil, or_false] at hp
          rcases hp with hp | hp
          · subst hp; exact ⟨ha, hsa⟩
          · subst hp; exact ⟨hb, hsb⟩

/-- Splitting at the dots gives back at most two pieces without dots that were joined with a
final `"*"`. -/
theorem SplitN_all_parts_star (parts : List String) (hlen : parts.length ≤ 2)
    (hdot : ∀ p ∈ parts, '.' ∉ p.data) :
    SplitN (Join (parts ++ ["*"]) ".") '.' (-1) = parts ++ ["*"] := by
  rw [SplitN_all]
  match parts, hlen, hdot with
  | [], _, _ => decide
  | [a], _, hdot =>
    have ha : '.' ∉ a.data := hdot a (by simp)
    have hd : (Join ([a] ++ ["*"]) ".").data = a.data ++ '.' :: ['*'] := by
      simp [Join, String.data_append]
    have hstar : '.' ∉ ['*'] := by decide
    rw [hd, Count_append_cons '.' _ _ ha, Count_of_not_mem '.' _ hstar,
      genSplitLoop_append_cons '.' 0 _ _ ha]
    rfl
  | [a, b], _, hdot =>
    have ha : '.' ∉ a.data := hdot a (by simp)
    have hb : '.' ∉ b.data := hdot b (by simp)
    have hd : (Join ([a, b] ++ ["*"]) ".").data
        = a.data ++ '.' :: (b.data ++ '.' :: ['*']) := by
      simp [Join, String.data_append]
    have hstar : '.' ∉ ['*'] := by decide
    rw [hd, Count_append_cons '.' _ _ ha, Count_append_cons '.' _ _ hb,
      Count_of_not_mem '.' _ hstar, genSplitLoop_append_cons '.' 1 _ _ ha,
      genSplitLoop_append_cons '.' 0 _ _ hb]
    rfl
  | _ :: _ :: _ :: _, hlen, _ =>
    simp only [List.length_cons] at hlen
    omega

/-- The result of `getSDKVersion` on a non-empty version: the leading pieces among the first two
that `strings.SplitN(version, ".", 3)` cuts, up to the first that is `"*"`, followed by `"*"`.
Those first two pieces have no dot in them. -/
theorem getSDKVersion_leading_pieces (version : String) (hv : version ≠ "") :
    getSDKVersion version
      = Join (((SplitN version '.' 3).take 2).takeWhile (fun p => decide (p ≠ "*")) ++ ["*"]) "."
    ∧ ∀ p ∈ (SplitN version '.' 3).take 2, '.' ∉ p.data := by
  rw [getSDKVersion_unfold version hv, SplitN_three]
  rcases genSplitLoop_two_shape version.data with
    ⟨hs, ha⟩ | ⟨a, b, hs, ha, hb⟩ | ⟨a, b, c, hs, ha, hb⟩
  · rw [hs]
    refine ⟨?_, ?_⟩
    · by_cases hsa : String.mk version.data = "*"
      · simp [getSDKVersionLoop, hsa, List.takeWhile]
      · simp [getSDKVersionLoop, hsa, List.takeWhile]
    · intro p hp
      simp only [List.map_cons, List.map_nil, List.take, List.mem_singleton] at hp
      subst hp
      exact ha
  · rw [hs]
    refine ⟨?_, ?_⟩
    · by_cases hsa : String.mk a = "*"
      · simp [getSDKVersionLoop, hsa, List.takeWhile]
      · by_cases hsb : String.mk b = "*"
        · simp [getSDKVersionLoop, hsa, hsb, List.takeWhile]
        · simp [getSDKVersionLoop, hsa, hsb, List.takeWhile]
    · intro p hp
      simp only [List.map_cons, List.map_nil, List.take, List.mem_cons, List.mem_singleton,
        List.not_mem_nil, or_false] at hp
      rcases hp with hp | hp
      · subst hp; exact ha
      · subst hp; exact hb
  · rw [hs]
    refine ⟨?_, ?_⟩
    · by_cases hsa : String.mk a = "*"
      · simp [getSDKVersionLoop, hsa, List.takeWhile]
      · by_cases hsb : String.mk b = "*"
        · simp [getSDKVersionLoop, hsa, hsb, List.takeWhile]
        · simp [getSDKVersionLoop, hsa, hsb, List.takeWhile]
    · intro p hp
      simp only [List.map_cons, List.map_nil, List.take, List.mem_cons, List.mem_singleton,
        List.not_mem_nil, or_false] at hp
      rcases hp with hp | hp
      · subst hp; exact ha
      · subst hp; exact hb

/-- C19: the shape of every result of `getSDKVersion`. For every input string, the result split
on `"."` (`strings.Split`) has at most three components, exactly one of them equals `"*"`, and
that one is the last. The components before it are the leading ones among the first two pieces
of the input, up to the first piece that is itself `"*"`: once a `"*"` is emitted nothing is
appended after it, also when the input contains a `"*"` component, as in `6.*.3`, which gives
`6.*`. The empty input gives the single component `"*"`. -/
theorem getSDKVersion_result_shape (version : String) :
    (SplitN (getSDKVersion version) '.' (-1)).length ≤ 3
    ∧ (SplitN (getSDKVersion version) '.' (-1)).count "*" = 1
    ∧ (SplitN (getSDKVersion version) '.' (-1)).getLast? = some "*"
    ∧ (version ≠ "" →
        SplitN (getSDKVersion version) '.' (-1)
          = ((SplitN version '.' 3).take 2).takeWhile (fun p => decide (p ≠ "*")) ++ ["*"])
    ∧ (version = "" → SplitN (getSDKVersion version) '.' (-1) = ["*"]) := by
  refine ⟨?_, ?_, ?_, ?_, ?_⟩
  · obtain ⟨parts, hlen, hparts, hres⟩ := getSDKVersion_shape version
    rw [hres, SplitN_all_parts_star parts hlen (fun p hp => (hparts p hp).1)]
    simp only [List.length_append, List.length_singleton]
    omega
  · obtain ⟨parts, hlen, hparts, hres⟩ := getSDKVersion_shape version
    rw [hres, SplitN_all_parts_star parts hlen (fun p hp => (hparts p hp).1)]
    have hnot : "*" ∉ parts := fun hm => (hparts "*" hm).2 rfl
    rw [List.count_append, List.count_eq_zero_of_not_mem hnot]
    rfl
  · obtain ⟨parts, hlen, hparts, hres⟩ := getSDKVersion_shape version
    rw [hres, SplitN_all_parts_star parts hlen (fun p hp => (hparts p hp).1)]
    exact List.getLast?_concat parts
  · intro hv
    obtain ⟨hres, hdot⟩ := getSDKVersion_leading_pieces version hv
    rw [hres]
    apply SplitN_all_parts_star
    · exact Nat.le_trans (List.takeWhile_prefix _).length_le (List.length_take_le 2 _)
    · intro p hp
      exact hdot p ((List.takeWhile_prefix _).subset hp)
  · intro hv
    subst hv
    decide

/-- The version `6.*.3`, whose second component is `"*"`, resolves to `6.*`, with the two
components `6` and `*`; and the versions `6.0.3` and `*.1.2`. -/
theorem getSDKVersion_result_shape_witness :
    getSDKVersion "6.*.3" = "6.*"
    ∧ SplitN (getSDKVersion "6.*.3") '.' (-1)
      = ((SplitN "6.*.3" '.' 3).take 2).takeWhile (fun p => decide (p ≠ "*")) ++ ["*"]
    ∧ ((SplitN "6.*.3" '.' 3).take 2).takeWhile (fun p => decide (p ≠ "*")) ++ ["*"]
      = ["6", "*"]
    ∧ SplitN (getSDKVersion "6.0.3") '.' (-1) = ["6", "0", "*"]
    ∧ SplitN (getSDKVersion "*.1.2") '.' (-1) = ["*"] :=
  ⟨by decide, (getSDKVersion_result_shape "6.*.3").2.2.2.1 (by decide), by decide, by decide,
    by decide⟩

/-- A version that is at most two pieces without dots, none of them `"*"`, followed by `"*"` is
returned by `getSDKVersion` as it is. -/
theorem getSDKVersion_parts_star (parts : List String) (hlen : parts.length ≤ 2)
    (hparts : ∀ p ∈ parts, '.' ∉ p.data ∧ p ≠ "*") :
    getSDKVersion (Join (parts ++ ["*"]) ".") = Join (parts ++ ["*"]) "." := by
  match parts, hlen, hparts with
  | [], _, _ => decide
  | [a], _, hparts =>
    have ha : '.' ∉ a.data := (hparts a (by simp)).1
    have hna : a ≠ "*" := (hparts a (by simp)).2
    have hd : (Join ([a] ++ ["*"]) ".").data = a.data ++ '.' :: ['*'] := by
      simp [Join, String.data_append]
    have hstar : '.' ∉ ['*'] := by decide
    have hs : genSplitLoop '.' 2 (Join ([a] ++ ["*"]) ".").data = [a.data, ['*']] := by
      rw [hd, genSplitLoop_append_cons '.' 1 _ _ ha, genSplitLoop_of_not_mem '.' 1 _ hstar]
    have hmk : String.mk ['*'] = "*" := rfl
    have hmka : String.mk a.data = a := rfl
    rw [getSDKVersion_unfold _ (ne_empty_of_data_append_cons _ _ _ _ hd), hs]
    simp [getSDKVersionLoop, Join, hmk, hmka, hna]
  | [a, b], _, hparts =>
    have ha : '.' ∉ a.data := (hparts a (by simp)).1
    have hna : a ≠ "*" := (hparts a (by simp)).2
    have hb : '.' ∉ b.data := (hparts b (by simp)).1
    have hnb : b ≠ "*" := (hparts b (by simp)).2
    have hd : (Join ([a, b] ++ ["*"]) ".").data
        = a.data ++ '.' :: (b.data ++ '.' :: ['*']) := by
      simp [Join, String.data_append]
    have hs : genSplitLoop '.' 2 (Join ([a, b] ++ ["*"]) ".").data
        = [a.data, b.data, ['*']] := by
      rw [hd, genSplitLoop_append_cons '.' 1 _ _ ha, genSplitLoop_append_cons '.' 0 _ _ hb]
      rfl
    rw [getSDKVersion_three _ a.data b.data ['*']
      (ne_empty_of_data_append_cons _ _ _ _ hd) hs hna hnb]
    simp [Join]
    exact (append_dot_star _).symm
  | _ :: _ :: _ :: _, hlen, _ =>
    simp only [List.length_cons] at hlen
    omega

/-! ## Idempotence of the SDK version resolver -/

/-- C22: `getSDKVersion` is idempotent. For every string `v`,
`getSDKVersion (getSDKVersion v) = getSDKVersion v`: a resolved SDK constraint is a fixed point
of the resolver. -/
theorem getSDKVersion_idempotent (v : String) :
    getSDKVersion (getSDKVersion v) = getSDKVersion v := by
  obtain ⟨parts, hlen, hparts, hres⟩ := getSDKVersion_shape v
  rw [hres]
  exact getSDKVersion_parts_star parts hlen hparts

/-! ## No deduplication by name -/

/-- C21: no deduplication by name. For every input on which `Detect` succeeds with a non-empty
`RuntimeVersion` in the runtime config and a project file found, the requirements of the plan
that are named `dotnet-runtime` are exactly two, in this order: the one with the version of the
runtime config and version-source `"runtimeconfig.json"`, then the one with the version of the
project file and version-source the base name of the project file; this holds whatever the two
versions are, equal or not. -/
theorem Detect_two_runtime_requirements (env : Env) (buildpackYMLParser : BuildpackConfigParser)
    (configParser : ConfigParser) (projectParser : ProjectParser) (context : DetectContext)
    (res : DetectResult)
    (h : Detect env buildpackYMLParser configParser projectParser context = (res, none))
    (hv : (detectedConfig env buildpackYMLParser configParser context).RuntimeVersion ≠ "")
    (hpf : detectedProjectFile env buildpackYMLParser projectParser context ≠ "") :
    res.Plan.Requires.filter (fun r => decide (r.Name = "dotnet-runtime"))
      = [{ Name := "dotnet-runtime",
           Metadata := {
             version := some
               (detectedConfig env buildpackYMLParser configParser context).RuntimeVersion,
             versionSource := some "runtimeconfig.json",
             launch := some true } },
         { Name := "dotnet-runtime",
           Metadata := {
             version := some (projectParser.ParseVersion
               (detectedProjectFile env buildpackYMLParser projectParser context)).1,
             versionSource := some (filepathBase
               (detectedProjectFile env buildpackYMLParser projectParser context)),
             launch := some true } }] := by
  obtain ⟨W, P, hW, _, hP, hreq⟩ :=
    Detect_plan env buildpackYMLParser configParser projectParser context res h
  rw [hreq, detectRuntimeConfig_eq, if_pos hv]
  have hWf : W.filter (fun r => decide (r.Name = "dotnet-runtime")) = [] := by
    rcases hW with ⟨hW, _⟩ | ⟨hW, _⟩ <;> (subst hW; simp)
  rcases hP with ⟨hp, _⟩ | ⟨_, version, aspNet, node, hpv, _, _, hP⟩
  · exact absurd hp hpf
  · subst hP
    rw [hpv]
    simp only [List.filter_append, hWf]
    by_cases ha : (detectedConfig env buildpackYMLParser configParser context).ASPNETVersion = ""
      <;> cases hx : (detectedConfig env buildpackYMLParser configParser context).Executable
      <;> cases aspNet <;> cases node <;> simp [ha, List.filter]

/-- Scenario A with the project file `/workspace/MyApp.csproj` of the same version `6.0.3`:
the plan keeps both `dotnet-runtime` requirements. -/
theorem Detect_two_runtime_requirements_witness :
    (Detect (fakeEnv []) fakeBuildpackYMLParser (fakeConfigParser scenarioAConfig none)
        (fakeProjectParser "/workspace/MyApp.csproj" "6.0.3" false false)
        workspaceContext).1.Plan.Requires.filter (fun r => decide (r.Name = "dotnet-runtime"))
      = [{ Name := "dotnet-runtime",
           Metadata := { version := some "6.0.3", versionSource := some "runtimeconfig.json",
                         launch := some true } },
         { Name := "dotnet-runtime",
           Metadata := { version := some "6.0.3", versionSource := some "MyApp.csproj",
                         launch := some true } }] :=
  Detect_two_runtime_requirements (fakeEnv []) fakeBuildpackYMLParser
    (fakeConfigParser scenarioAConfig none)
    (fakeProjectParser "/workspace/MyApp.csproj" "6.0.3" false false) workspaceContext _
    (show _ = ((Detect (fakeEnv []) fakeBuildpackYMLParser
      (fakeConfigParser scenarioAConfig none)
      (fakeProjectParser "/workspace/MyApp.csproj" "6.0.3" false false) workspaceContext).1,
      none) by decide)
    (by decide) (by decide)

end DotnetExecute
